import Mathlib

/-!
The relay go-slack-bot: a shallow embedding of `main.go`.

The program is an HTTP relay: `POST /weather` parses a form, takes its `text`
field and re-posts it as the JSON object with the single key `text` to a
configured webhook URL.

The embedding has two layers.

* The functions of `main.go` (`getEnv`, `main`, `sendToChannel`,
  `handleHomeRequest`, `handlePostWeatherRequest`) are translated statement by
  statement.  Effects are made explicit: the response writer is a value that
  is threaded through a handler, the transport that carries one request and
  brings back one response is an oracle of a `World`, and an `Effects` log
  records every call of `sendToChannel`, every outbound request sent and
  every response received.
* The Go standard library functions those statements call
  (`os.LookupEnv`, `url.ParseQuery`, `Request.ParseForm`, `Request.FormValue`,
  `utf8.DecodeRune`, `utf8.EncodeRune`, the string encoder of `json.Marshal`,
  `http.Client.Do` with its following of redirects) are translated from the
  Go standard library (Go 1.22), since their behaviour decides several
  properties of the program.

A Go string is a sequence of arbitrary bytes, so strings are lists of byte
values rather than Lean `String`s (which hold only valid Unicode).
-/

namespace GoSlackBot

/-! ## Strings -/

/-- A Go string: a finite sequence of bytes, each a value in `0..255`. -/
abbrev GoString := List Nat

/-- The bytes of an ASCII string literal of the source. -/
def ascii (s : String) : GoString := s.toList.map Char.toNat

/-- The error values that can arise; only their presence is ever inspected. -/
inductive GoError where
  /-- The `url.EscapeError` of a malformed percent escape. -/
  | escape
  /-- The `invalid semicolon separator in query` of `url.ParseQuery`. -/
  | semicolon
  /-- An error of `mime.ParseMediaType` on the `Content-Type` header. -/
  | mediaType
  /-- The error `http: POST too large`. -/
  | postTooLarge
  /-- An error while reading the request body. -/
  | bodyRead
  /-- An error of `url.Parse` inside `http.NewRequest`. -/
  | urlParse
  /-- An error of the transport under `http.Client.Do`: the request got no
  response. -/
  | transport
  /-- The error `failed to parse Location header` of `http.Client.Do`. -/
  | location
  /-- The error `stopped after 10 redirects` of `http.Client.Do`. -/
  | tooManyRedirects
  deriving DecidableEq, Repr

/-! ## `unicode/utf8` -/

/-- The constant `utf8.RuneError`, U+FFFD. -/
def RuneError : Nat := 0xFFFD

/-- The constant `utf8.RuneSelf`: bytes below it are single-byte runes. -/
def RuneSelf : Nat := 0x80

/-- The constant `utf8.UTFMax`: the longest encoding of a rune, in bytes. -/
def UTFMax : Nat := 4

/-- The constant `utf8.MaxRune`. -/
def MaxRune : Nat := 0x10FFFF

/-- The table `first` of `unicode/utf8`: information about the first byte of
an encoding. `0xF0` is ASCII (`as`), `0xF1` is invalid (`xx`); otherwise the
low three bits are the size and the high four bits index `acceptRanges`. -/
def first (b : Nat) : Nat :=
  if b < 0x80 then 0xF0
  else if b < 0xC2 then 0xF1
  else if b < 0xE0 then 0x02
  else if b = 0xE0 then 0x13
  else if b < 0xED then 0x03
  else if b = 0xED then 0x23
  else if b < 0xF0 then 0x03
  else if b = 0xF0 then 0x34
  else if b < 0xF4 then 0x04
  else if b = 0xF4 then 0x44
  else 0xF1

/-- The table `acceptRanges` of `unicode/utf8`: the range `(lo, hi)` allowed
for the second byte. -/
def acceptRanges (i : Nat) : Nat × Nat :=
  if i = 0 then (0x80, 0xBF)
  else if i = 1 then (0xA0, 0xBF)
  else if i = 2 then (0x80, 0x9F)
  else if i = 3 then (0x90, 0xBF)
  else if i = 4 then (0x80, 0x8F)
  else (0, 0)

/-- The function `utf8.DecodeRune` (and `DecodeRuneInString`): the first rune
of `s` and its width in bytes; `(RuneError, 1)` on an invalid encoding and
`(RuneError, 0)` on the empty string. -/
def DecodeRune (s : GoString) : Nat × Nat :=
  let n := s.length
  if n < 1 then (RuneError, 0)
  else
    let s0 := s.getD 0 0
    let x := first s0
    if x ≥ 0xF0 then
      if x = 0xF1 then (RuneError, 1) else (s0, 1)
    else
      let sz := x &&& 7
      let accept := acceptRanges (x >>> 4)
      if n < sz then (RuneError, 1)
      else
        let s1 := s.getD 1 0
        if s1 < accept.1 ∨ accept.2 < s1 then (RuneError, 1)
        else if sz ≤ 2 then ((s0 &&& 0x1F) <<< 6 ||| (s1 &&& 0x3F), 2)
        else
          let s2 := s.getD 2 0
          if s2 < 0x80 ∨ 0xBF < s2 then (RuneError, 1)
          else if sz ≤ 3 then
            ((s0 &&& 0x0F) <<< 12 ||| (s1 &&& 0x3F) <<< 6 ||| (s2 &&& 0x3F), 3)
          else
            let s3 := s.getD 3 0
            if s3 < 0x80 ∨ 0xBF < s3 then (RuneError, 1)
            else
              ((s0 &&& 0x07) <<< 18 ||| (s1 &&& 0x3F) <<< 12 ||| (s2 &&& 0x3F) <<< 6
                ||| (s3 &&& 0x3F), 4)

/-- The function `utf8.EncodeRune`: the UTF-8 encoding of the rune `r`
(`byte(_)` truncates to eight bits). Surrogates and values above `MaxRune`
are encoded as `RuneError`. -/
def EncodeRune (r : Nat) : GoString :=
  if r ≤ 0x7F then [r % 256]
  else if r ≤ 0x7FF then
    [0xC0 ||| (r >>> 6) % 256, 0x80 ||| (r % 256 &&& 0x3F)]
  else if r > MaxRune ∨ (0xD800 ≤ r ∧ r ≤ 0xDFFF) then
    [0xE0 ||| (RuneError >>> 12) % 256, 0x80 ||| ((RuneError >>> 6) % 256 &&& 0x3F),
      0x80 ||| (RuneError % 256 &&& 0x3F)]
  else if r ≤ 0xFFFF then
    [0xE0 ||| (r >>> 12) % 256, 0x80 ||| ((r >>> 6) % 256 &&& 0x3F),
      0x80 ||| (r % 256 &&& 0x3F)]
  else
    [0xF0 ||| (r >>> 18) % 256, 0x80 ||| ((r >>> 12) % 256 &&& 0x3F),
      0x80 ||| ((r >>> 6) % 256 &&& 0x3F), 0x80 ||| (r % 256 &&& 0x3F)]

/-- The loop of `utf8.ValidString`, with `fuel` bounding the iterations:
no decoding step meets an invalid encoding. -/
def ValidStringLoop : Nat → GoString → Bool
  | 0, s => s.isEmpty
  | fuel + 1, s =>
    if s.isEmpty then true
    else
      let d := DecodeRune s
      if d.1 = RuneError ∧ d.2 = 1 then false
      else ValidStringLoop fuel (s.drop d.2)

/-- The function `utf8.ValidString`: `s` consists entirely of valid UTF-8
encoded runes. Every step consumes at least one byte, so `s.length` steps
are enough. -/
def ValidString (s : GoString) : Bool := ValidStringLoop s.length s

/-! ## `encoding/json`: encoding -/

/-- The table `htmlSafeSet` of `encoding/json`: the ASCII bytes that are
written to a JSON string unescaped when HTML escaping is on. -/
def htmlSafeSet (b : Nat) : Bool :=
  0x20 ≤ b && b < 0x80 && b != 0x22 && b != 0x26 && b != 0x3C && b != 0x3E && b != 0x5C

/-- The table `hex` of `encoding/json`, the string `0123456789abcdef`. -/
def hex (n : Nat) : Nat := if n < 10 then 0x30 + n else 0x61 + (n - 10)

/-- The `switch b` of `appendString` for an ASCII byte outside
`htmlSafeSet`: the escape sequence written for it. -/
def escapeByte (b : Nat) : GoString :=
  if b = 0x5C ∨ b = 0x22 then [0x5C, b]
  else if b = 0x08 then [0x5C, 0x62]
  else if b = 0x0C then [0x5C, 0x66]
  else if b = 0x0A then [0x5C, 0x6E]
  else if b = 0x0D then [0x5C, 0x72]
  else if b = 0x09 then [0x5C, 0x74]
  else [0x5C, 0x75, 0x30, 0x30, hex (b >>> 4), hex (b &&& 0xF)]

/-- The loop of `appendString` of `encoding/json` with `escapeHTML` set:
the bytes written for `src` between the two quotes. The source copies the
unescaped stretches `src[start:i]` lazily; here every byte is written when
it is passed, which yields the same output. `fuel` bounds the iterations. -/
def appendStringLoop : Nat → GoString → GoString
  | 0, _ => []
  | _ + 1, [] => []
  | fuel + 1, b :: rest =>
    if b < RuneSelf then
      (if htmlSafeSet b then [b] else escapeByte b) ++ appendStringLoop fuel rest
    else
      let d := DecodeRune ((b :: rest).take UTFMax)
      if d.1 = RuneError ∧ d.2 = 1 then
        [0x5C, 0x75, 0x66, 0x66, 0x66, 0x64] ++ appendStringLoop fuel rest
      else if d.1 = 0x2028 ∨ d.1 = 0x2029 then
        [0x5C, 0x75, 0x32, 0x30, 0x32, hex (d.1 &&& 0xF)]
          ++ appendStringLoop fuel ((b :: rest).drop d.2)
      else
        (b :: rest).take d.2 ++ appendStringLoop fuel ((b :: rest).drop d.2)

/-- The function `appendString` of `encoding/json`: `src` as a quoted JSON
string. Every iteration consumes at least one byte of `src`. -/
def appendString (src : GoString) : GoString :=
  [0x22] ++ appendStringLoop src.length src ++ [0x22]

/-- The type `message` of `main.go`: `Text string` with tag `json:"text"`. -/
structure message where
  Text : GoString
  deriving DecidableEq, Repr

/-- The call `json.Marshal(message\x7btext\x7d)`: an opening brace, the quoted
field name `text` and a colon, the encoded string, a closing brace. Encoding
a struct with a single string field has no error case. -/
def jsonMarshal (m : message) : Except GoError GoString :=
  .ok ([0x7B] ++ [0x22] ++ ascii "text" ++ [0x22, 0x3A] ++ appendString m.Text ++ [0x7D])

/-! ## `encoding/json`: decoding

The decoder below is the reading of "JSON-decodes" used by the round-trip
property: the string decoder follows `unquote` of `encoding/json`, and the
object decoder reads an object whose members are strings. -/

/-- The `switch` in the loop of `getu4`: the value of a hex digit, `none`
where the source returns `-1`. -/
def hexValue (c : Nat) : Option Nat :=
  if 0x30 ≤ c ∧ c ≤ 0x39 then some (c - 0x30)
  else if 0x61 ≤ c ∧ c ≤ 0x66 then some (c - 0x61 + 10)
  else if 0x41 ≤ c ∧ c ≤ 0x46 then some (c - 0x41 + 10)
  else none

/-- The function `getu4` of `encoding/json`: the value of the four hex digits
of a leading `\uXXXX` escape, `none` where the source returns `-1`. -/
def getu4 (s : GoString) : Option Nat :=
  match s with
  | b0 :: b1 :: c0 :: c1 :: c2 :: c3 :: _ =>
    if b0 ≠ 0x5C ∨ b1 ≠ 0x75 then none
    else
      match hexValue c0, hexValue c1, hexValue c2, hexValue c3 with
      | some d0, some d1, some d2, some d3 => some (((d0 * 16 + d1) * 16 + d2) * 16 + d3)
      | _, _, _, _ => none
  | _ => none

/-- The function `utf16.IsSurrogate`. -/
def IsSurrogate (r : Nat) : Bool := 0xD800 ≤ r && r < 0xE000

/-- The function `utf16.DecodeRune`: the rune of a surrogate pair, U+FFFD when
the pair is not valid; `r2` is `none` where `getu4` returned `-1`. -/
def utf16DecodeRune (r1 : Nat) (r2 : Option Nat) : Nat :=
  match r2 with
  | some r2 =>
    if 0xD800 ≤ r1 ∧ r1 < 0xDC00 ∧ 0xDC00 ≤ r2 ∧ r2 < 0xE000 then
      ((r1 - 0xD800) <<< 10 ||| (r2 - 0xDC00)) + 0x10000
    else 0xFFFD
  | none => 0xFFFD

/-- The single-character escapes of a JSON string: the byte denoted by the
character after a backslash, `none` when it is not an escape character. -/
def simpleEscape (e : Nat) : Option Nat :=
  if e = 0x22 ∨ e = 0x5C ∨ e = 0x2F then some e
  else if e = 0x62 then some 0x08
  else if e = 0x66 then some 0x0C
  else if e = 0x6E then some 0x0A
  else if e = 0x72 then some 0x0D
  else if e = 0x74 then some 0x09
  else none

/-- The decoding loop of `unquote` of `encoding/json`, started after the
opening quote: the decoded bytes of the string literal and the input after
its closing quote; `none` when the literal is malformed or unterminated.
`fuel` bounds the iterations. -/
def unquoteLoop : Nat → GoString → Option (GoString × GoString)
  | 0, _ => none
  | _ + 1, [] => none
  | fuel + 1, c :: rest =>
    if c = 0x22 then some ([], rest)
    else if c = 0x5C then
      match rest with
      | [] => none
      | e :: rest1 =>
        if e = 0x75 then
          match getu4 (c :: rest) with
          | none => none
          | some rr =>
            let rest2 := rest1.drop 4
            if IsSurrogate rr ∧ utf16DecodeRune rr (getu4 rest2) ≠ 0xFFFD then
              (unquoteLoop fuel (rest2.drop 6)).map
                fun p => (EncodeRune (utf16DecodeRune rr (getu4 rest2)) ++ p.1, p.2)
            else if IsSurrogate rr then
              (unquoteLoop fuel rest2).map fun p => (EncodeRune 0xFFFD ++ p.1, p.2)
            else
              (unquoteLoop fuel rest2).map fun p => (EncodeRune rr ++ p.1, p.2)
        else
          match simpleEscape e with
          | none => none
          | some b => (unquoteLoop fuel rest1).map fun p => (b :: p.1, p.2)
    else if c < 0x20 then none
    else if c < RuneSelf then (unquoteLoop fuel rest).map fun p => (c :: p.1, p.2)
    else
      let d := DecodeRune (c :: rest)
      (unquoteLoop fuel ((c :: rest).drop d.2)).map fun p => (EncodeRune d.1 ++ p.1, p.2)

/-- A JSON string literal at the head of the input: its decoded bytes and the
input after it. -/
def decodeString (s : GoString) : Option (GoString × GoString) :=
  match s with
  | c :: rest => if c = 0x22 then unquoteLoop rest.length rest else none
  | [] => none

/-- The input without its leading JSON whitespace. -/
def skipSpace (s : GoString) : GoString :=
  s.dropWhile fun c => c = 0x20 || c = 0x09 || c = 0x0A || c = 0x0D

/-- The members of a JSON object after its opening brace, up to and with the
closing brace: the `(name, value)` pairs in order and the input after the
brace. Only string values are read. `fuel` bounds the number of members. -/
def decodeMembers : Nat → GoString → Option (List (GoString × GoString) × GoString)
  | 0, _ => none
  | fuel + 1, s =>
    match decodeString (skipSpace s) with
    | none => none
    | some (name, s1) =>
      match skipSpace s1 with
      | c :: s2 =>
        if c ≠ 0x3A then none
        else
          match decodeString (skipSpace s2) with
          | none => none
          | some (value, s3) =>
            match skipSpace s3 with
            | d :: s4 =>
              if d = 0x7D then some ([(name, value)], s4)
              else if d = 0x2C then
                (decodeMembers fuel s4).map fun p => ((name, value) :: p.1, p.2)
              else none
            | [] => none
      | [] => none

/-- JSON decoding of a document that is an object with string members: its
`(name, value)` pairs in order; `none` when the input is not such a
document. -/
def jsonDecodeObject (s : GoString) : Option (List (GoString × GoString)) :=
  match skipSpace s with
  | c :: s1 =>
    if c ≠ 0x7B then none
    else
      match skipSpace s1 with
      | d :: s2 =>
        if d = 0x7D then (if skipSpace s2 = [] then some [] else none)
        else
          match decodeMembers s1.length s1 with
          | some (members, s3) => if skipSpace s3 = [] then some members else none
          | none => none
      | [] => none
  | [] => none

/-! ## `net/url` -/

/-- The function `ishex` of `net/url`. -/
def ishex (c : Nat) : Bool :=
  (0x30 ≤ c && c ≤ 0x39) || (0x61 ≤ c && c ≤ 0x66) || (0x41 ≤ c && c ≤ 0x46)

/-- The function `unhex` of `net/url`. -/
def unhex (c : Nat) : Nat :=
  if 0x30 ≤ c ∧ c ≤ 0x39 then c - 0x30
  else if 0x61 ≤ c ∧ c ≤ 0x66 then c - 0x61 + 10
  else if 0x41 ≤ c ∧ c ≤ 0x46 then c - 0x41 + 10
  else 0

/-- The function `url.QueryUnescape`: `%XX` becomes the byte `XX`, `+` becomes
a space; a `%` not followed by two hex digits is an `EscapeError`. -/
def QueryUnescape : GoString → Except GoError GoString
  | [] => .ok []
  | c :: rest =>
    if c = 0x25 then
      match rest with
      | h1 :: h2 :: rest2 =>
        if ishex h1 && ishex h2 then
          (QueryUnescape rest2).map fun t => (unhex h1 <<< 4 ||| unhex h2) :: t
        else .error .escape
      | _ => .error .escape
    else if c = 0x2B then (QueryUnescape rest).map fun t => 0x20 :: t
    else (QueryUnescape rest).map fun t => c :: t

/-- The type `url.Values`, a map from a key to the list of its values, as the
list of `(key, value)` pairs in the order of insertion: `m[key]` is the list
of the values paired with `key`, in order. -/
abbrev Values := List (GoString × GoString)

/-- The map lookup `m[key]` of a `url.Values`. -/
def Values.get (m : Values) (key : GoString) : List GoString :=
  (m.filter fun p => p.1 = key).map Prod.snd

/-- The call `strings.Cut(s, sep)` for a one-byte separator: the text before
the first `sep` and the text after it (empty when there is no `sep`). -/
def cut (sep : Nat) (s : GoString) : GoString × GoString :=
  (s.takeWhile fun c => c ≠ sep, (s.dropWhile fun c => c ≠ sep).drop 1)

/-- The pieces of `s` between the occurrences of `sep`: what repeated
`strings.Cut(s, sep)` returns as its first result. -/
def splitBy (sep : Nat) : GoString → List GoString
  | [] => [[]]
  | c :: rest =>
    if c = sep then [] :: splitBy sep rest
    else
      match splitBy sep rest with
      | seg :: segs => (c :: seg) :: segs
      | [] => [[c]]

/-- The body of the loop of `parseQuery` of `net/url` for one `&`-separated
piece `key`, on the map and the error collected so far. -/
def parseQueryStep (acc : Values × Option GoError) (key : GoString) :
    Values × Option GoError :=
  if key.contains 0x3B then (acc.1, some .semicolon)
  else if key = [] then acc
  else
    let kv := cut 0x3D key
    match QueryUnescape kv.1 with
    | .error err1 => (acc.1, if acc.2 = none then some err1 else acc.2)
    | .ok k =>
      match QueryUnescape kv.2 with
      | .error err1 => (acc.1, if acc.2 = none then some err1 else acc.2)
      | .ok v => (acc.1 ++ [(k, v)], acc.2)

/-- The function `url.ParseQuery`: the values parsed from `query` and the
first error met (a semicolon error replaces an earlier one, as in the
source); the pairs without an error are kept when another pair has one. -/
def ParseQuery (query : GoString) : Values × Option GoError :=
  (splitBy 0x26 query).foldl parseQueryStep ([], none)

/-! ## `net/http` -/

/-- What `Request.ParseForm` reads of an `http.Request` received by the
server. -/
structure Request where
  /-- The field `Method`. -/
  method : GoString
  /-- The field `URL.RawQuery`. -/
  rawQuery : GoString
  /-- The media type returned by `mime.ParseMediaType` for the `Content-Type`
  header (an absent header counting as `application/octet-stream`). -/
  mediaType : GoString
  /-- The error returned by that call of `mime.ParseMediaType`, if any. -/
  mediaTypeErr : Option GoError
  /-- The outcome of reading `Body`: its bytes, or the error of the read. -/
  body : Except GoError GoString

/-- The limit `maxFormSize` of `parsePostForm`, 10 MB. -/
def maxFormSize : Nat := 10 <<< 20

/-- The function `parsePostForm` of `net/http`, for a request of the server
(whose `Body` is never nil and is not a `MaxBytesReader`): the values of the
body, `none` where the source leaves the result nil, and the error. -/
def parsePostForm (r : Request) : Option Values × Option GoError :=
  if r.mediaType = ascii "application/x-www-form-urlencoded" then
    match r.body with
    | .error e => (none, if r.mediaTypeErr = none then some e else r.mediaTypeErr)
    | .ok full =>
      let b := full.take (maxFormSize + 1)
      if b.length > maxFormSize then (none, some .postTooLarge)
      else
        let q := ParseQuery b
        (some q.1, if r.mediaTypeErr = none then q.2 else r.mediaTypeErr)
  else (none, r.mediaTypeErr)

/-- The fields set by `Request.ParseForm`, and the error it returns. -/
structure ParsedForm where
  /-- The field `PostForm`. -/
  PostForm : Values
  /-- The field `Form`. -/
  Form : Values
  /-- The returned error. -/
  err : Option GoError

/-- The method `Request.ParseForm` on a request whose form has not been
parsed yet: `PostForm` holds the values of the body for POST, PUT and PATCH,
`Form` holds them followed by the values of the URL query, and the error is
the first of the two parses. -/
def ParseForm (r : Request) : ParsedForm :=
  let post : Option Values × Option GoError :=
    if r.method = ascii "POST" ∨ r.method = ascii "PUT" ∨ r.method = ascii "PATCH" then
      parsePostForm r
    else (none, none)
  let postForm : Values := post.1.getD []
  let q := ParseQuery r.rawQuery
  { PostForm := postForm
    Form := postForm ++ q.1
    err := if post.2 = none then q.2 else post.2 }

/-- The method `Request.FormValue` once `Form` is set: the first value of
`key`, the empty string when there is none. -/
def FormValue (form : Values) (key : GoString) : GoString :=
  match form.get key with
  | v :: _ => v
  | [] => []

/-- An `http.ResponseWriter`: the status code once the header is written,
and the body written so far. -/
structure ResponseWriter where
  /-- The status code of the written header, `none` before it is written. -/
  status : Option Nat
  /-- The bytes of the body. -/
  body : GoString
  deriving DecidableEq, Repr

/-- The writer a handler is called with. -/
def ResponseWriter.fresh : ResponseWriter := { status := none, body := [] }

/-- The method `ResponseWriter.WriteHeader`: sets the status code, once. -/
def ResponseWriter.WriteHeader (w : ResponseWriter) (code : Nat) : ResponseWriter :=
  match w.status with
  | none => { w with status := some code }
  | some _ => w

/-- The method `ResponseWriter.Write`: writes the header with status 200 if
it is not written yet, then appends to the body. -/
def ResponseWriter.Write (w : ResponseWriter) (b : GoString) : ResponseWriter :=
  let w1 := w.WriteHeader 200
  { w1 with body := w1.body ++ b }

/-- The constant `http.StatusOK`. -/
def StatusOK : Nat := 200

/-- The constant `http.StatusBadRequest`. -/
def StatusBadRequest : Nat := 400

/-- The response a client receives from a writer: the status code (200 when
the handler wrote no header) and the body. -/
def ResponseWriter.response (w : ResponseWriter) : Nat × GoString :=
  (w.status.getD 200, w.body)

/-- An outbound `http.Request` as built by `sendToChannel`. -/
structure OutRequest where
  /-- The method. -/
  method : GoString
  /-- The target URL, as given to `http.NewRequest`. -/
  url : GoString
  /-- The header fields, as `(name, value)` pairs. -/
  header : List (GoString × GoString)
  /-- The body. -/
  body : GoString
  deriving DecidableEq, Repr

/-- The method `Header.Set`: replaces the values of `key` by `value`. -/
def headerSet (h : List (GoString × GoString)) (key value : GoString) :
    List (GoString × GoString) :=
  (h.filter fun p => p.1 ≠ key) ++ [(key, value)]

/-- An `http.Response`, as far as `http.Client.Do` reads it; `sendToChannel`
inspects none of its fields. -/
structure Response where
  /-- The status code. -/
  StatusCode : Nat
  /-- The value of the header field `Location`, empty when it is absent. -/
  Location : GoString
  /-- The body. -/
  Body : GoString
  deriving DecidableEq, Repr

/-- The outside of the process as far as `sendToChannel` meets it. -/
structure World where
  /-- The error of `url.Parse` in `http.NewRequest` for a URL, if any (the
  method `POST` is valid, so this is the only error of `NewRequest`). -/
  urlParse : GoString → Option GoError
  /-- The call `req.URL.Parse(loc)` of `http.Client.Do`: the target of a
  redirect, from the URL of the request and the `Location` of its response. -/
  resolve : GoString → GoString → Except GoError GoString
  /-- The function `refererForURL` of `net/http`: the `Referer` of a follow-up
  request, from the URL of the last request and the new URL; empty for none. -/
  referer : GoString → GoString → GoString
  /-- The transport: the outcome of sending one request, a response or an
  error when there is none. The first argument is the number of requests
  sent before it in the same call of `http.Client.Do`. -/
  roundTrip : Nat → OutRequest → Except GoError Response

/-- The function `redirectBehavior` of `net/http`, for a first request that
has `GetBody` set (as `http.NewRequest` does for a `bytes.Buffer`): the
method of the follow-up request, whether the response is a redirect to
follow, and whether the follow-up carries the body. -/
def redirectBehavior (reqMethod : GoString) (resp : Response) : GoString × Bool × Bool :=
  if resp.StatusCode = 301 ∨ resp.StatusCode = 302 ∨ resp.StatusCode = 303 then
    (if reqMethod ≠ ascii "GET" ∧ reqMethod ≠ ascii "HEAD" then ascii "GET" else reqMethod,
      true, false)
  else if resp.StatusCode = 307 ∨ resp.StatusCode = 308 then (reqMethod, true, true)
  else ([], false, false)

/-- What a call of `http.Client.Do` returns and does. -/
structure DoResult where
  /-- The returned response, if any. -/
  resp : Option Response
  /-- The returned error, `none` for nil. -/
  err : Option GoError
  /-- The requests sent, in order. -/
  sent : List OutRequest
  /-- The responses received, in order. -/
  received : List Response
  deriving DecidableEq, Repr

/-- The loop of `http.Client.Do` with the default redirect policy: `req` is
sent after the requests `reqs`; a response that is a redirect with a
`Location` is followed by a new request, which copies the header of the
first request `ireq` and carries its body for 307 and 308. `allowed` is the
number of redirects that `defaultCheckRedirect` still accepts, ten requests
in all; when it refuses, `Do` returns the last response with an error. -/
def clientDoLoop (world : World) (ireq : OutRequest) (allowed : Nat) (reqs : List OutRequest)
    (received : List Response) (req : OutRequest) : DoResult :=
  match world.roundTrip reqs.length req with
  | .error e => { resp := none, err := some e, sent := reqs ++ [req], received := received }
  | .ok resp =>
    let behavior := redirectBehavior req.method resp
    if behavior.2.1 = false ∨ resp.Location = [] then
      { resp := some resp, err := none, sent := reqs ++ [req], received := received ++ [resp] }
    else
      match world.resolve req.url resp.Location with
      | .error _ =>
        { resp := none, err := some .location, sent := reqs ++ [req],
          received := received ++ [resp] }
      | .ok u =>
        match allowed with
        | 0 =>
          { resp := some resp, err := some .tooManyRedirects, sent := reqs ++ [req],
            received := received ++ [resp] }
        | allowed + 1 =>
          clientDoLoop world ireq allowed (reqs ++ [req]) (received ++ [resp])
            { method := behavior.1
              url := u
              header :=
                if world.referer req.url u = [] then ireq.header
                else headerSet ireq.header (ascii "Referer") (world.referer req.url u)
              body := if behavior.2.2 then ireq.body else [] }

/-- The method `Do` of the zero-value `http.Client`, which follows up to nine
redirects after the first request. -/
def ClientDo (world : World) (req : OutRequest) : DoResult :=
  clientDoLoop world req 9 [] [] req

/-- The function `http.NewRequest`. -/
def NewRequest (world : World) (method url body : GoString) : Except GoError OutRequest :=
  match world.urlParse url with
  | some e => .error e
  | none => .ok { method := method, url := url, header := [], body := body }

/-! ## `os` -/

/-- The environment of the process: the value of each variable that is set. -/
abbrev Environ := GoString → Option GoString

/-- The function `os.LookupEnv`: the value and `true` when the variable is
set (its value may be empty), the empty string and `false` otherwise. -/
def LookupEnv (environ : Environ) (key : GoString) : GoString × Bool :=
  match environ key with
  | some v => (v, true)
  | none => ([], false)

/-! ## `main.go` -/

/-- The type `Env` of `main.go`. -/
structure Env where
  darksky : GoString
  slackURL : GoString
  deriving DecidableEq, Repr

/-- The observable effects of the handlers: the arguments of the calls of
`sendToChannel`, the outbound requests sent by `http.Client.Do` and the
responses received for them, each in order. -/
structure Effects where
  /-- The argument of each call of `sendToChannel`. -/
  calls : List GoString
  /-- Each outbound request that was sent. -/
  sent : List OutRequest
  /-- Each response that was received. -/
  received : List Response
  deriving DecidableEq, Repr

/-- No effect yet. -/
def Effects.none : Effects := { calls := [], sent := [], received := [] }

/-- The method `sendToChannel` of `main.go`: the returned error (`none` for
nil) and the effects. -/
def sendToChannel (world : World) (env : Env) (text : GoString) (fx : Effects) :
    Option GoError × Effects :=
  let fx := { fx with calls := fx.calls ++ [text] }
  match jsonMarshal { Text := text } with
  | .error err => (some err, fx)
  | .ok body =>
    match NewRequest world (ascii "POST") env.slackURL body with
    | .error err => (some err, fx)
    | .ok req =>
      let req := { req with
        header := headerSet req.header (ascii "Content-Type") (ascii "application/json") }
      let done := ClientDo world req
      let fx := { fx with
        sent := fx.sent ++ done.sent
        received := fx.received ++ done.received }
      match done.err with
      | some err => (some err, fx)
      | Option.none => (Option.none, fx)

/-- The method `handleHomeRequest` of `main.go`. -/
def handleHomeRequest (_env : Env) (w : ResponseWriter) (_req : Request) (fx : Effects) :
    ResponseWriter × Effects :=
  let w := w.WriteHeader StatusOK
  let w := w.Write (ascii "The service is working!")
  (w, fx)

/-- The method `handlePostWeatherRequest` of `main.go`. -/
def handlePostWeatherRequest (world : World) (env : Env) (w : ResponseWriter) (req : Request)
    (fx : Effects) : ResponseWriter × Effects :=
  let parsed := ParseForm req
  if parsed.err ≠ Option.none then
    (w.WriteHeader StatusBadRequest, fx)
  else
    let t := FormValue parsed.Form (ascii "text")
    let sent := sendToChannel world env t fx
    if sent.1 ≠ Option.none then
      (w.WriteHeader StatusBadRequest, sent.2)
    else
      let w := w.WriteHeader StatusOK
      let w := w.Write (ascii "")
      (w, sent.2)

/-- The function `getEnv` of `main.go`. -/
def getEnv (environ : Environ) (key fallback : GoString) : GoString :=
  let r := LookupEnv environ key
  if r.2 then r.1 else fallback

/-- What `main` of `main.go` builds before it starts the server. -/
structure Startup where
  /-- The configuration shared by the handlers. -/
  env : Env
  /-- The field `Addr` of the server. -/
  addr : GoString
  deriving DecidableEq, Repr

/-- The function `main` of `main.go` up to the start of the server;
`fmt.Sprintf("0.0.0.0:%s", x)` is the literal followed by `x`. -/
def main (environ : Environ) : Startup :=
  let env : Env :=
    { darksky := getEnv environ (ascii "DARKSKY_API_KEY") (ascii "DARKSKY_API_KEY")
      slackURL := getEnv environ (ascii "SLACK_URL") (ascii "SLACK_URL") }
  let addr := ascii "0.0.0.0:" ++ getEnv environ (ascii "PORT") (ascii "3000")
  { env := env, addr := addr }

/-! ## Test data -/

/-- A world in which every URL parses and every request is answered with
status 500. -/
def worldAnswering : World :=
  { urlParse := fun _ => none
    resolve := fun _ loc => .ok loc
    referer := fun last _ => last
    roundTrip := fun _ _ => .ok { StatusCode := 500, Location := [], Body := [] } }

/-- A world in which the endpoint answers with status 302 and a `Location`
that does not parse. -/
def worldBadLocation : World :=
  { urlParse := fun _ => none
    resolve := fun _ _ => .error .location
    referer := fun last _ => last
    roundTrip := fun _ _ => .ok { StatusCode := 302, Location := ascii "%zz", Body := [] } }

/-- A world in which the endpoint answers the first request with status 307
and the `Location` `http://other`, and the next request with status 200. -/
def worldRedirecting : World :=
  { urlParse := fun _ => none
    resolve := fun _ loc => .ok loc
    referer := fun last _ => last
    roundTrip := fun n _ =>
      if n = 0 then .ok { StatusCode := 307, Location := ascii "http://other", Body := [] }
      else .ok { StatusCode := 200, Location := [], Body := [] } }

/-- A world in which no request gets a response. -/
def worldUnreachable : World :=
  { urlParse := fun _ => none
    resolve := fun _ loc => .ok loc
    referer := fun last _ => last
    roundTrip := fun _ _ => .error .transport }

/-- A configuration with a webhook URL. -/
def envExample : Env := { darksky := ascii "key", slackURL := ascii "http://hook" }

/-- A form-encoded POST request with the given body and URL query. -/
def postRequest (body query : String) : Request :=
  { method := ascii "POST"
    rawQuery := ascii query
    mediaType := ascii "application/x-www-form-urlencoded"
    mediaTypeErr := none
    body := .ok (ascii body) }

/-- A POST request without a `Content-Type` header, which counts as
`application/octet-stream`, with the given body and URL query. -/
def untypedRequest (body query : String) : Request :=
  { method := ascii "POST"
    rawQuery := ascii query
    mediaType := ascii "application/octet-stream"
    mediaTypeErr := none
    body := .ok (ascii body) }

/-! ## Properties of `getEnv` and `main` -/

theorem getEnv_eq (environ : Environ) (key fallback : GoString) :
    getEnv environ key fallback = (environ key).getD fallback := by
  unfold getEnv LookupEnv
  cases h : environ key <;> simp

/-- C5, as amended: `getEnv` returns the value of the variable whenever the
variable is set, also when that value is empty, and returns the fallback
exactly when the variable is unset; it is a total function without an error
result. -/
theorem getEnv_set_or_fallback (environ : Environ) (key fallback : GoString) :
    (∀ v, environ key = some v → getEnv environ key fallback = v) ∧
      (environ key = none → getEnv environ key fallback = fallback) := by
  rw [getEnv_eq]
  constructor
  · intro v hv
    simp [hv]
  · intro hn
    simp [hn]

/-- C5, counterexample: with `PORT` set to the empty string, `getEnv` returns
the empty string and not the fallback `3000`. -/
theorem getEnv_empty_value_not_fallback :
    (fun k => if k = ascii "PORT" then some [] else none : Environ) (ascii "PORT") = some [] ∧
      getEnv (fun k => if k = ascii "PORT" then some [] else none) (ascii "PORT") (ascii "3000")
        = [] ∧
      getEnv (fun k => if k = ascii "PORT" then some [] else none) (ascii "PORT") (ascii "3000")
        ≠ ascii "3000" := by
  decide

/-- C9: the configuration built by `main` has `slackURL` equal to the value
of `SLACK_URL` when it is set and to the string `SLACK_URL` when it is unset,
`darksky` equal to the value of `DARKSKY_API_KEY` when set and to the string
`DARKSKY_API_KEY` when unset, and the listen address `0.0.0.0:` followed by
the value of `PORT` when set and by `3000` when unset. -/
theorem main_configuration (environ : Environ) :
    (main environ).env.slackURL = (environ (ascii "SLACK_URL")).getD (ascii "SLACK_URL") ∧
      (main environ).env.darksky
        = (environ (ascii "DARKSKY_API_KEY")).getD (ascii "DARKSKY_API_KEY") ∧
      (main environ).addr = ascii "0.0.0.0:" ++ (environ (ascii "PORT")).getD (ascii "3000") := by
  simp only [main, getEnv_eq, and_self]

/-! ## Properties of `sendToChannel` -/

theorem sendToChannel_calls (world : World) (env : Env) (text : GoString) (fx : Effects) :
    (sendToChannel world env text fx).2.calls = fx.calls ++ [text] := by
  unfold sendToChannel jsonMarshal NewRequest
  cases world.urlParse env.slackURL <;> simp
  split <;> rfl

theorem clientDoLoop_error (world : World) (ireq : OutRequest) (allowed : Nat)
    (reqs : List OutRequest) (received : List Response) (req : OutRequest) (e : GoError)
    (h : world.roundTrip reqs.length req = .error e) :
    clientDoLoop world ireq allowed reqs received req
      = { resp := none, err := some e, sent := reqs ++ [req], received := received } := by
  unfold clientDoLoop
  simp only [h]

theorem clientDoLoop_final (world : World) (ireq : OutRequest) (allowed : Nat)
    (reqs : List OutRequest) (received : List Response) (req : OutRequest) (res : Response)
    (h : world.roundTrip reqs.length req = .ok res)
    (hfinal : (redirectBehavior req.method res).2.1 = false ∨ res.Location = []) :
    clientDoLoop world ireq allowed reqs received req
      = { resp := some res, err := none, sent := reqs ++ [req],
          received := received ++ [res] } := by
  unfold clientDoLoop
  simp only [h, hfinal, if_true]

theorem redirectBehavior_final (m : GoString) (res : Response)
    (h : res.StatusCode ≠ 301 ∧ res.StatusCode ≠ 302 ∧ res.StatusCode ≠ 303 ∧
      res.StatusCode ≠ 307 ∧ res.StatusCode ≠ 308) :
    (redirectBehavior m res).2.1 = false := by
  unfold redirectBehavior
  rw [if_neg (by omega), if_neg (by omega)]

theorem clientDoLoop_bad_location (world : World) (ireq : OutRequest) (allowed : Nat)
    (reqs : List OutRequest) (received : List Response) (req : OutRequest) (res : Response)
    (e : GoError) (h : world.roundTrip reqs.length req = .ok res)
    (hfollow : ¬((redirectBehavior req.method res).2.1 = false ∨ res.Location = []))
    (hloc : world.resolve req.url res.Location = .error e) :
    clientDoLoop world ireq allowed reqs received req
      = { resp := none, err := some .location, sent := reqs ++ [req],
          received := received ++ [res] } := by
  unfold clientDoLoop
  simp only [h, hfollow, if_false, hloc]

theorem clientDoLoop_refused (world : World) (ireq : OutRequest)
    (reqs : List OutRequest) (received : List Response) (req : OutRequest) (res : Response)
    (u : GoString) (h : world.roundTrip reqs.length req = .ok res)
    (hfollow : ¬((redirectBehavior req.method res).2.1 = false ∨ res.Location = []))
    (hloc : world.resolve req.url res.Location = .ok u) :
    clientDoLoop world ireq 0 reqs received req
      = { resp := some res, err := some .tooManyRedirects, sent := reqs ++ [req],
          received := received ++ [res] } := by
  unfold clientDoLoop
  simp only [h, hfollow, if_false, hloc]

theorem clientDoLoop_follow (world : World) (ireq : OutRequest) (allowed : Nat)
    (reqs : List OutRequest) (received : List Response) (req : OutRequest) (res : Response)
    (u : GoString) (h : world.roundTrip reqs.length req = .ok res)
    (hfollow : ¬((redirectBehavior req.method res).2.1 = false ∨ res.Location = []))
    (hloc : world.resolve req.url res.Location = .ok u) :
    clientDoLoop world ireq (allowed + 1) reqs received req
      = clientDoLoop world ireq allowed (reqs ++ [req]) (received ++ [res])
          { method := (redirectBehavior req.method res).1
            url := u
            header :=
              if world.referer req.url u = [] then ireq.header
              else headerSet ireq.header (ascii "Referer") (world.referer req.url u)
            body := if (redirectBehavior req.method res).2.2 then ireq.body else [] } := by
  conv_lhs => unfold clientDoLoop
  simp only [h, hfollow, if_false, hloc]

/-- The requests sent by the loop of `http.Client.Do`: those sent before,
the request it starts with, and at most `allowed` follow-up requests. -/
theorem clientDoLoop_sent (world : World) (ireq : OutRequest) (allowed : Nat) :
    ∀ (reqs : List OutRequest) (received : List Response) (req : OutRequest),
      ∃ more : List OutRequest,
        (clientDoLoop world ireq allowed reqs received req).sent = reqs ++ req :: more ∧
          more.length ≤ allowed := by
  induction allowed with
  | zero =>
    intro reqs received req
    refine ⟨[], ?_, Nat.le_refl _⟩
    cases hrt : world.roundTrip reqs.length req with
    | error e => rw [clientDoLoop_error world ireq 0 reqs received req e hrt]
    | ok res =>
      by_cases hfinal : (redirectBehavior req.method res).2.1 = false ∨ res.Location = []
      · rw [clientDoLoop_final world ireq 0 reqs received req res hrt hfinal]
      · cases hloc : world.resolve req.url res.Location with
        | error e =>
          rw [clientDoLoop_bad_location world ireq 0 reqs received req res e hrt hfinal hloc]
        | ok u => rw [clientDoLoop_refused world ireq reqs received req res u hrt hfinal hloc]
  | succ allowed ih =>
    intro reqs received req
    cases hrt : world.roundTrip reqs.length req with
    | error e =>
      rw [clientDoLoop_error world ireq _ reqs received req e hrt]
      exact ⟨[], rfl, Nat.zero_le _⟩
    | ok res =>
      by_cases hfinal : (redirectBehavior req.method res).2.1 = false ∨ res.Location = []
      · rw [clientDoLoop_final world ireq _ reqs received req res hrt hfinal]
        exact ⟨[], rfl, Nat.zero_le _⟩
      · cases hloc : world.resolve req.url res.Location with
        | error e =>
          rw [clientDoLoop_bad_location world ireq _ reqs received req res e hrt hfinal hloc]
          exact ⟨[], rfl, Nat.zero_le _⟩
        | ok u =>
          rw [clientDoLoop_follow world ireq allowed reqs received req res u hrt hfinal hloc]
          generalize OutRequest.mk _ _ _ _ = next
          obtain ⟨more, hmore, hlen⟩ := ih (reqs ++ [req]) (received ++ [res]) next
          exact ⟨next :: more, by rw [hmore, List.append_assoc]; rfl, Nat.succ_le_succ hlen⟩

/-- When `http.Client.Do` returns without an error, its last step received a
response. -/
theorem clientDoLoop_received (world : World) (ireq : OutRequest) (allowed : Nat) :
    ∀ (reqs : List OutRequest) (received : List Response) (req : OutRequest),
      (clientDoLoop world ireq allowed reqs received req).err = none →
        (clientDoLoop world ireq allowed reqs received req).received ≠ [] := by
  induction allowed with
  | zero =>
    intro reqs received req
    cases hrt : world.roundTrip reqs.length req with
    | error e =>
      rw [clientDoLoop_error world ireq 0 reqs received req e hrt]
      simp
    | ok res =>
      by_cases hfinal : (redirectBehavior req.method res).2.1 = false ∨ res.Location = []
      · rw [clientDoLoop_final world ireq 0 reqs received req res hrt hfinal]
        simp
      · cases hloc : world.resolve req.url res.Location with
        | error e =>
          rw [clientDoLoop_bad_location world ireq 0 reqs received req res e hrt hfinal hloc]
          simp
        | ok u =>
          rw [clientDoLoop_refused world ireq reqs received req res u hrt hfinal hloc]
          simp
  | succ allowed ih =>
    intro reqs received req
    cases hrt : world.roundTrip reqs.length req with
    | error e =>
      rw [clientDoLoop_error world ireq _ reqs received req e hrt]
      simp
    | ok res =>
      by_cases hfinal : (redirectBehavior req.method res).2.1 = false ∨ res.Location = []
      · rw [clientDoLoop_final world ireq _ reqs received req res hrt hfinal]
        simp
      · cases hloc : world.resolve req.url res.Location with
        | error e =>
          rw [clientDoLoop_bad_location world ireq _ reqs received req res e hrt hfinal hloc]
          simp
        | ok u =>
          rw [clientDoLoop_follow world ireq allowed reqs received req res u hrt hfinal hloc]
          exact ih _ _ _

/-- The result of `sendToChannel` when the request cannot be constructed. -/
theorem sendToChannel_bad_url (world : World) (env : Env) (text : GoString) (fx : Effects)
    (e : GoError) (h : world.urlParse env.slackURL = some e) :
    sendToChannel world env text fx = (some e, { fx with calls := fx.calls ++ [text] }) := by
  unfold sendToChannel jsonMarshal NewRequest
  simp only [h]

/-- The result of `sendToChannel` when the request can be constructed: that
of the one call of `http.Client.Do` on the request. -/
theorem sendToChannel_done (world : World) (env : Env) (text : GoString) (fx : Effects)
    (body : GoString) (hbody : jsonMarshal { Text := text } = .ok body)
    (h : world.urlParse env.slackURL = none) :
    sendToChannel world env text fx
      = ((ClientDo world ⟨ascii "POST", env.slackURL,
            [(ascii "Content-Type", ascii "application/json")], body⟩).err,
          { calls := fx.calls ++ [text]
            sent := fx.sent ++ (ClientDo world ⟨ascii "POST", env.slackURL,
              [(ascii "Content-Type", ascii "application/json")], body⟩).sent
            received := fx.received ++ (ClientDo world ⟨ascii "POST", env.slackURL,
              [(ascii "Content-Type", ascii "application/json")], body⟩).received }) := by
  have hb : body = [0x7B] ++ [0x22] ++ ascii "text" ++ [0x22, 0x3A] ++ appendString text
      ++ [0x7D] := by
    unfold jsonMarshal at hbody
    exact (Except.ok.inj hbody).symm
  subst hb
  unfold sendToChannel jsonMarshal NewRequest
  simp only [h, headerSet, List.filter_nil, List.nil_append]
  split <;> simp_all

/-- C6, as amended: `sendToChannel` returns an error when the request cannot
be constructed and when the transport fails on it; it returns nil when the
response to it is received and is not a redirect that the client follows
(a status other than 301, 302, 303, 307 and 308, or no `Location`), whatever
its status code and body; in all cases it returns what the one call of
`http.Client.Do` returns as its error, and nil only after a response was
received. -/
theorem sendToChannel_result (world : World) (env : Env) (text : GoString) :
    (∀ e, world.urlParse env.slackURL = some e →
        (sendToChannel world env text Effects.none).1 = some e ∧
          (sendToChannel world env text Effects.none).2.received = []) ∧
      (∀ body, jsonMarshal { Text := text } = .ok body → world.urlParse env.slackURL = none →
        (∀ e, world.roundTrip 0 ⟨ascii "POST", env.slackURL,
            [(ascii "Content-Type", ascii "application/json")], body⟩ = .error e →
          (sendToChannel world env text Effects.none).1 = some e ∧
            (sendToChannel world env text Effects.none).2.received = []) ∧
        (∀ res, world.roundTrip 0 ⟨ascii "POST", env.slackURL,
            [(ascii "Content-Type", ascii "application/json")], body⟩ = .ok res →
          (res.StatusCode ≠ 301 ∧ res.StatusCode ≠ 302 ∧ res.StatusCode ≠ 303 ∧
              res.StatusCode ≠ 307 ∧ res.StatusCode ≠ 308) ∨ res.Location = [] →
          (sendToChannel world env text Effects.none).1 = none ∧
            (sendToChannel world env text Effects.none).2.received = [res]) ∧
        (sendToChannel world env text Effects.none).1
          = (ClientDo world ⟨ascii "POST", env.slackURL,
              [(ascii "Content-Type", ascii "application/json")], body⟩).err) ∧
      ((sendToChannel world env text Effects.none).1 = none →
        (sendToChannel world env text Effects.none).2.received ≠ []) := by
  refine ⟨?_, ?_, ?_⟩
  · intro e he
    rw [sendToChannel_bad_url world env text Effects.none e he]
    exact ⟨rfl, rfl⟩
  · intro body hbody hu
    rw [sendToChannel_done world env text Effects.none body hbody hu]
    refine ⟨?_, ?_, rfl⟩
    · intro e he
      unfold ClientDo
      rw [clientDoLoop_error world _ 9 [] [] _ e he]
      exact ⟨rfl, rfl⟩
    · intro res hres hfinal
      have hf : (redirectBehavior (ascii "POST") res).2.1 = false ∨ res.Location = [] :=
        hfinal.imp (redirectBehavior_final _ res) id
      unfold ClientDo
      rw [clientDoLoop_final world _ 9 [] [] _ res hres hf]
      exact ⟨rfl, rfl⟩
  · cases hu : world.urlParse env.slackURL with
    | some e =>
      rw [sendToChannel_bad_url world env text Effects.none e hu]
      intro h
      cases h
    | none =>
      rw [sendToChannel_done world env text Effects.none _ rfl hu]
      intro h
      have := clientDoLoop_received world _ 9 [] [] _ h
      simpa [Effects.none, ClientDo] using this

/-- C7, as amended: `sendToChannel` issues no request when the request
cannot be constructed; otherwise it calls `http.Client.Do` once, and the
first request sent has method `POST`, the URL `env.slackURL`, the single
header field `Content-Type` with value `application/json`, and the JSON
encoding of `message` with the text as its body; it is the only request sent
when the transport fails on it and when its response is not a redirect that
the client follows; in all cases at most ten requests are sent. -/
theorem sendToChannel_requests (world : World) (env : Env) (text : GoString) (fx : Effects) :
    ∃ new : List OutRequest,
      (sendToChannel world env text fx).2.sent = fx.sent ++ new ∧
      new.length ≤ 10 ∧
      (world.urlParse env.slackURL ≠ none → new = []) ∧
      (world.urlParse env.slackURL = none →
        ∃ body more, jsonMarshal { Text := text } = .ok body ∧
          new = ⟨ascii "POST", env.slackURL,
            [(ascii "Content-Type", ascii "application/json")], body⟩ :: more ∧
          new = (ClientDo world ⟨ascii "POST", env.slackURL,
            [(ascii "Content-Type", ascii "application/json")], body⟩).sent ∧
          (∀ e, world.roundTrip 0 ⟨ascii "POST", env.slackURL,
              [(ascii "Content-Type", ascii "application/json")], body⟩ = .error e →
            more = []) ∧
          (∀ res, world.roundTrip 0 ⟨ascii "POST", env.slackURL,
              [(ascii "Content-Type", ascii "application/json")], body⟩ = .ok res →
            (res.StatusCode ≠ 301 ∧ res.StatusCode ≠ 302 ∧ res.StatusCode ≠ 303 ∧
                res.StatusCode ≠ 307 ∧ res.StatusCode ≠ 308) ∨ res.Location = [] →
            more = [])) := by
  cases hu : world.urlParse env.slackURL with
  | some e =>
    refine ⟨[], ?_, by simp, fun _ => rfl, fun h => by cases h⟩
    rw [sendToChannel_bad_url world env text fx e hu]
    simp
  | none =>
    obtain ⟨more, hmore, hlen⟩ := clientDoLoop_sent world
      ⟨ascii "POST", env.slackURL, [(ascii "Content-Type", ascii "application/json")],
        [0x7B] ++ [0x22] ++ ascii "text" ++ [0x22, 0x3A] ++ appendString text ++ [0x7D]⟩ 9 [] []
      ⟨ascii "POST", env.slackURL, [(ascii "Content-Type", ascii "application/json")],
        [0x7B] ++ [0x22] ++ ascii "text" ++ [0x22, 0x3A] ++ appendString text ++ [0x7D]⟩
    rw [List.nil_append] at hmore
    refine ⟨_ :: more, ?_, by simp only [List.length_cons]; omega, fun h => absurd rfl h,
      fun _ => ⟨_, more, rfl, rfl, ?_, ?_, ?_⟩⟩
    · rw [sendToChannel_done world env text fx _ rfl hu]
      simp only [ClientDo, hmore]
    · simp only [ClientDo, hmore]
    · intro e he
      have := clientDoLoop_error world
        ⟨ascii "POST", env.slackURL, [(ascii "Content-Type", ascii "application/json")],
          [0x7B] ++ [0x22] ++ ascii "text" ++ [0x22, 0x3A] ++ appendString text ++ [0x7D]⟩
        9 [] [] _ e he
      rw [this] at hmore
      simpa using hmore
    · intro res hres hfinal
      have hf : (redirectBehavior (ascii "POST") res).2.1 = false ∨ res.Location = [] :=
        hfinal.imp (redirectBehavior_final _ res) id
      have := clientDoLoop_final world
        ⟨ascii "POST", env.slackURL, [(ascii "Content-Type", ascii "application/json")],
          [0x7B] ++ [0x22] ++ ascii "text" ++ [0x22, 0x3A] ++ appendString text ++ [0x7D]⟩
        9 [] [] _ res hres hf
      rw [this] at hmore
      simpa using hmore

/-! ## Properties of the handlers -/

/-- C8: `handleHomeRequest` responds with status 200 and the body
`The service is working!`, whatever the request and the configuration, and
leaves the effects as they were: it makes no outbound call. -/
theorem handleHomeRequest_response (env : Env) (req : Request) (fx : Effects) :
    (handleHomeRequest env ResponseWriter.fresh req fx).1.response
        = (200, ascii "The service is working!") ∧
      (handleHomeRequest env ResponseWriter.fresh req fx).2 = fx := by
  constructor <;> rfl

/-- C1: when `ParseForm` returns an error, `handlePostWeatherRequest`
responds with status 400 and an empty body, and the effects are unchanged:
`sendToChannel` is not called and no outbound request is made. -/
theorem handlePostWeatherRequest_parse_error (world : World) (env : Env) (req : Request)
    (fx : Effects) (h : (ParseForm req).err ≠ none) :
    (handlePostWeatherRequest world env ResponseWriter.fresh req fx).1.response = (400, []) ∧
      (handlePostWeatherRequest world env ResponseWriter.fresh req fx).2 = fx := by
  unfold handlePostWeatherRequest
  simp only [h, ne_eq, not_false_eq_true, if_true]
  exact ⟨rfl, trivial⟩

/-- C1, witness: the body `text=%zz` has an invalid percent escape. -/
theorem handlePostWeatherRequest_parse_error_witness :
    (ParseForm (postRequest "text=%zz" "")).err ≠ none ∧
      ((handlePostWeatherRequest worldAnswering envExample ResponseWriter.fresh
          (postRequest "text=%zz" "") Effects.none).1.response = (400, []) ∧
        (handlePostWeatherRequest worldAnswering envExample ResponseWriter.fresh
          (postRequest "text=%zz" "") Effects.none).2 = Effects.none) :=
  ⟨by decide, handlePostWeatherRequest_parse_error worldAnswering envExample
    (postRequest "text=%zz" "") Effects.none (by decide)⟩

/-- C2: when `ParseForm` succeeds, `handlePostWeatherRequest` calls
`sendToChannel` exactly once, with the value of the form field `text`, and
the response follows from the result of that call: status 400 with an empty
body when it returns an error, status 200 with an empty body otherwise. -/
theorem handlePostWeatherRequest_relays (world : World) (env : Env) (req : Request)
    (h : (ParseForm req).err = none) :
    (handlePostWeatherRequest world env ResponseWriter.fresh req Effects.none).2.calls
        = [FormValue (ParseForm req).Form (ascii "text")] ∧
      (handlePostWeatherRequest world env ResponseWriter.fresh req Effects.none).2
        = (sendToChannel world env (FormValue (ParseForm req).Form (ascii "text"))
            Effects.none).2 ∧
      (handlePostWeatherRequest world env ResponseWriter.fresh req Effects.none).1.response
        = if (sendToChannel world env (FormValue (ParseForm req).Form (ascii "text"))
              Effects.none).1 ≠ none
          then (400, []) else (200, []) := by
  unfold handlePostWeatherRequest
  simp only [h, ne_eq, not_true_eq_false, if_false]
  refine ⟨?_, ?_, ?_⟩
  · split <;> simp [sendToChannel_calls, Effects.none]
  · split <;> rfl
  · split <;> rfl

/-- C2, witness: the body `text=hello` and an endpoint that answers give
status 200, an empty body, and one call of `sendToChannel`, with `hello`. -/
theorem handlePostWeatherRequest_relays_witness :
    (ParseForm (postRequest "text=hello" "")).err = none ∧
      FormValue (ParseForm (postRequest "text=hello" "")).Form (ascii "text") = ascii "hello" ∧
      (sendToChannel worldAnswering envExample (ascii "hello") Effects.none).1 = none ∧
      ((handlePostWeatherRequest worldAnswering envExample ResponseWriter.fresh
          (postRequest "text=hello" "") Effects.none).2.calls
          = [FormValue (ParseForm (postRequest "text=hello" "")).Form (ascii "text")] ∧
        (handlePostWeatherRequest worldAnswering envExample ResponseWriter.fresh
          (postRequest "text=hello" "") Effects.none).2
          = (sendToChannel worldAnswering envExample
              (FormValue (ParseForm (postRequest "text=hello" "")).Form (ascii "text"))
              Effects.none).2 ∧
        (handlePostWeatherRequest worldAnswering envExample ResponseWriter.fresh
          (postRequest "text=hello" "") Effects.none).1.response
          = if (sendToChannel worldAnswering envExample
                (FormValue (ParseForm (postRequest "text=hello" "")).Form (ascii "text"))
                Effects.none).1 ≠ none
            then (400, []) else (200, [])) :=
  ⟨by decide, by decide, by decide,
    handlePostWeatherRequest_relays worldAnswering envExample (postRequest "text=hello" "")
      (by decide)⟩

/-- C4: when `ParseForm` succeeds and the form has no field `text`,
`handlePostWeatherRequest` calls `sendToChannel` once, with the empty string,
and responds with status 200 and an empty body if that call succeeds. -/
theorem handlePostWeatherRequest_text_omitted (world : World) (env : Env) (req : Request)
    (h : (ParseForm req).err = none) (habsent : (ParseForm req).Form.get (ascii "text") = []) :
    (handlePostWeatherRequest world env ResponseWriter.fresh req Effects.none).2.calls = [[]] ∧
      ((sendToChannel world env [] Effects.none).1 = none →
        (handlePostWeatherRequest world env ResponseWriter.fresh req Effects.none).1.response
          = (200, [])) := by
  have hv : FormValue (ParseForm req).Form (ascii "text") = [] := by
    simp [FormValue, habsent]
  unfold handlePostWeatherRequest
  simp only [h, ne_eq, not_true_eq_false, if_false, hv]
  constructor
  · split <;> simp [sendToChannel_calls, Effects.none]
  · intro hs
    simp only [hs, not_true_eq_false, if_false]
    rfl

/-- C4, witness: the body `user=bob` has no field `text`. -/
theorem handlePostWeatherRequest_text_omitted_witness :
    (ParseForm (postRequest "user=bob" "")).err = none ∧
      (ParseForm (postRequest "user=bob" "")).Form.get (ascii "text") = [] ∧
      (sendToChannel worldAnswering envExample [] Effects.none).1 = none ∧
      ((handlePostWeatherRequest worldAnswering envExample ResponseWriter.fresh
          (postRequest "user=bob" "") Effects.none).2.calls = [[]] ∧
        ((sendToChannel worldAnswering envExample [] Effects.none).1 = none →
          (handlePostWeatherRequest worldAnswering envExample ResponseWriter.fresh
            (postRequest "user=bob" "") Effects.none).1.response = (200, []))) :=
  ⟨by decide, by decide, by decide,
    handlePostWeatherRequest_text_omitted worldAnswering envExample (postRequest "user=bob" "")
      (by decide) (by decide)⟩

theorem Values.get_append (m1 m2 : Values) (key : GoString) :
    Values.get (m1 ++ m2) key = Values.get m1 key ++ Values.get m2 key := by
  simp [Values.get]

theorem FormValue_append (m1 m2 : Values) (key : GoString) :
    FormValue (m1 ++ m2) key
      = match Values.get m1 key with
        | v :: _ => v
        | [] => FormValue m2 key := by
  unfold FormValue
  rw [Values.get_append]
  cases Values.get m1 key <;> simp

theorem parsePostForm_urlencoded (req : Request) (b : GoString)
    (hct : req.mediaType = ascii "application/x-www-form-urlencoded") (hb : req.body = .ok b)
    (h : (parsePostForm req).2 = none) :
    (parsePostForm req).1 = some (ParseQuery b).1 := by
  unfold parsePostForm at h ⊢
  simp only [hct, if_true, hb] at h ⊢
  by_cases hlen : (List.take (maxFormSize + 1) b).length > maxFormSize
  · rw [if_pos hlen] at h
    simp at h
  · have hle : b.length ≤ maxFormSize := by
      rw [List.length_take] at hlen
      omega
    have htake : List.take (maxFormSize + 1) b = b := List.take_of_length_le (by omega)
    rw [if_neg hlen, htake]

theorem handlePostWeatherRequest_calls (world : World) (env : Env) (req : Request)
    (h : (ParseForm req).err = none) :
    (handlePostWeatherRequest world env ResponseWriter.fresh req Effects.none).2.calls
      = [FormValue (ParseForm req).Form (ascii "text")] := by
  unfold handlePostWeatherRequest
  simp only [h, ne_eq, not_true_eq_false, if_false]
  split <;> simp [sendToChannel_calls, Effects.none]

/-- C10, as amended: for a POST request whose form parses, the string passed
to `sendToChannel` depends on the media type of the `Content-Type` header.
When it is `application/x-www-form-urlencoded`, the body could be read and
the string is the first `text` value of the body when the body has one,
otherwise the first `text` value of the URL query when the query has one,
and the empty string when neither has a field `text`. For any other media
type the body is not parsed, and the string is the first `text` value of
the URL query when the query has one and the empty string otherwise. -/
theorem handlePostWeatherRequest_text_source (world : World) (env : Env) (req : Request)
    (hm : req.method = ascii "POST") (h : (ParseForm req).err = none) :
    (req.mediaType = ascii "application/x-www-form-urlencoded" →
      ∃ b, req.body = .ok b ∧
        (handlePostWeatherRequest world env ResponseWriter.fresh req Effects.none).2.calls
          = [match Values.get (ParseQuery b).1 (ascii "text") with
             | v :: _ => v
             | [] =>
               match Values.get (ParseQuery req.rawQuery).1 (ascii "text") with
               | v :: _ => v
               | [] => []]) ∧
      (req.mediaType ≠ ascii "application/x-www-form-urlencoded" →
        (handlePostWeatherRequest world env ResponseWriter.fresh req Effects.none).2.calls
          = [match Values.get (ParseQuery req.rawQuery).1 (ascii "text") with
             | v :: _ => v
             | [] => []]) := by
  have hpost : (parsePostForm req).2 = none := by
    unfold ParseForm at h
    simp only [hm, true_or, if_true] at h
    by_cases hp : (parsePostForm req).2 = none
    · exact hp
    · simp [hp] at h
  rw [handlePostWeatherRequest_calls world env req h]
  constructor
  · intro hct
    cases hb : req.body with
    | error e =>
      exfalso
      unfold parsePostForm at hpost
      simp only [hct, if_true, hb] at hpost
      split at hpost <;> simp_all
    | ok b =>
      refine ⟨b, rfl, ?_⟩
      have hform : (ParseForm req).Form = (ParseQuery b).1 ++ (ParseQuery req.rawQuery).1 := by
        unfold ParseForm
        simp only [hm, true_or, if_true, parsePostForm_urlencoded req b hct hb hpost,
          Option.getD_some]
      rw [hform, FormValue_append]
      rfl
  · intro hct
    have hform : (ParseForm req).Form = (ParseQuery req.rawQuery).1 := by
      unfold ParseForm parsePostForm
      simp only [hm, true_or, if_true, hct, if_false, Option.getD_none, List.nil_append]
    rw [hform]
    rfl

/-- C10, witness: with a URL-encoded body `user=bob`, without a field
`text`, and the URL query `text=v`, the string passed on is `v`, not the
empty string; so it is without a `Content-Type`. -/
theorem handlePostWeatherRequest_text_source_witness :
    (handlePostWeatherRequest worldAnswering envExample ResponseWriter.fresh
        (postRequest "user=bob" "text=v") Effects.none).2.calls = [ascii "v"] ∧
      (∃ b, (postRequest "user=bob" "text=v").body = .ok b ∧
        (handlePostWeatherRequest worldAnswering envExample ResponseWriter.fresh
          (postRequest "user=bob" "text=v") Effects.none).2.calls
          = [match Values.get (ParseQuery b).1 (ascii "text") with
             | v :: _ => v
             | [] =>
               match Values.get (ParseQuery (postRequest "user=bob" "text=v").rawQuery).1
                   (ascii "text") with
               | v :: _ => v
               | [] => []]) ∧
      (handlePostWeatherRequest worldAnswering envExample ResponseWriter.fresh
        (untypedRequest "" "text=v") Effects.none).2.calls
        = [match Values.get (ParseQuery (untypedRequest "" "text=v").rawQuery).1
             (ascii "text") with
           | v :: _ => v
           | [] => []] :=
  ⟨by decide,
    (handlePostWeatherRequest_text_source worldAnswering envExample
      (postRequest "user=bob" "text=v") (by decide) (by decide)).1 (by decide),
    (handlePostWeatherRequest_text_source worldAnswering envExample
      (untypedRequest "" "text=v") (by decide) (by decide)).2 (by decide)⟩

/-- C10, counterexample: a POST request without a `Content-Type` and with
the body `text=hello`. The form parses, the body read as a URL-encoded form
has the `text` value `hello`, and the string passed on is the empty string. -/
theorem handlePostWeatherRequest_untyped_body_ignored :
    (untypedRequest "text=hello" "").method = ascii "POST" ∧
      (ParseForm (untypedRequest "text=hello" "")).err = none ∧
      Values.get (ParseQuery (ascii "text=hello")).1 (ascii "text") = [ascii "hello"] ∧
      (handlePostWeatherRequest worldAnswering envExample ResponseWriter.fresh
        (untypedRequest "text=hello" "") Effects.none).2.calls = [[]] ∧
      (handlePostWeatherRequest worldAnswering envExample ResponseWriter.fresh
        (untypedRequest "text=hello" "") Effects.none).2.calls ≠ [ascii "hello"] := by
  decide

/-! ## Bit operations as arithmetic -/

theorem and_3F (a : Nat) : a &&& 0x3F = a % 64 := Nat.and_pow_two_sub_one_eq_mod a 6
theorem and_1F (a : Nat) : a &&& 0x1F = a % 32 := Nat.and_pow_two_sub_one_eq_mod a 5
theorem and_0F (a : Nat) : a &&& 0x0F = a % 16 := Nat.and_pow_two_sub_one_eq_mod a 4
theorem and_07 (a : Nat) : a &&& 0x07 = a % 8 := Nat.and_pow_two_sub_one_eq_mod a 3
theorem shl_4 (a : Nat) : a <<< 4 = a * 16 := by simp [Nat.shiftLeft_eq]
theorem shl_6 (a : Nat) : a <<< 6 = a * 64 := by simp [Nat.shiftLeft_eq]
theorem shl_10 (a : Nat) : a <<< 10 = a * 1024 := by simp [Nat.shiftLeft_eq]
theorem shl_12 (a : Nat) : a <<< 12 = a * 4096 := by simp [Nat.shiftLeft_eq]
theorem shl_18 (a : Nat) : a <<< 18 = a * 262144 := by simp [Nat.shiftLeft_eq]
theorem shr_4 (a : Nat) : a >>> 4 = a / 16 := by simp [Nat.shiftRight_eq_div_pow]
theorem shr_6 (a : Nat) : a >>> 6 = a / 64 := by simp [Nat.shiftRight_eq_div_pow]
theorem shr_12 (a : Nat) : a >>> 12 = a / 4096 := by simp [Nat.shiftRight_eq_div_pow]
theorem shr_18 (a : Nat) : a >>> 18 = a / 262144 := by simp [Nat.shiftRight_eq_div_pow]
theorem or_of_lt (i a b : Nat) (h : b < 2 ^ i) : a * 2 ^ i ||| b = a * 2 ^ i + b := by
  rw [Nat.mul_comm]
  exact (Nat.mul_add_lt_is_or h a).symm
theorem or_of_mod (i x b : Nat) (hx : x % 2 ^ i = 0) (hb : b < 2 ^ i) : x ||| b = x + b := by
  have hx2 : x = x / 2 ^ i * 2 ^ i := by
    have := Nat.div_add_mod x (2 ^ i)
    rw [hx, Nat.add_zero, Nat.mul_comm] at this
    exact this.symm
  rw [hx2]
  exact or_of_lt i _ b hb
theorem or_64 (x b : Nat) (hx : x % 64 = 0) (hb : b < 64) : x ||| b = x + b :=
  or_of_mod 6 x b hx hb
theorem or_4096 (x b : Nat) (hx : x % 4096 = 0) (hb : b < 4096) : x ||| b = x + b :=
  or_of_mod 12 x b hx hb
theorem or_262144 (x b : Nat) (hx : x % 262144 = 0) (hb : b < 262144) : x ||| b = x + b :=
  or_of_mod 18 x b hx hb
theorem or_C0 (b : Nat) (h : b < 64) : 0xC0 ||| b = 0xC0 + b := or_of_lt 6 3 b h
theorem or_80 (b : Nat) (h : b < 128) : 0x80 ||| b = 0x80 + b := or_of_lt 7 1 b h
theorem or_E0 (b : Nat) (h : b < 32) : 0xE0 ||| b = 0xE0 + b := or_of_lt 5 7 b h
theorem or_F0 (b : Nat) (h : b < 16) : 0xF0 ||| b = 0xF0 + b := or_of_lt 4 15 b h

/-! ## `DecodeRune` by the class of the first byte -/

theorem first_eq_two (b : Nat) (h1 : 0xC2 ≤ b) (h2 : b < 0xE0) : first b = 0x02 := by
  unfold first
  simp only [show ¬ b < 0x80 by omega, show ¬ b < 0xC2 by omega, h2, if_true, if_false]

theorem DecodeRune_ascii (b0 : Nat) (rest : GoString) (h : b0 < 0x80) :
    DecodeRune (b0 :: rest) = (b0, 1) := by
  simp [DecodeRune, first, h]

theorem DecodeRune_bad_lead (b0 : Nat) (rest : GoString)
    (h : (0x80 ≤ b0 ∧ b0 < 0xC2) ∨ 0xF4 < b0) : DecodeRune (b0 :: rest) = (RuneError, 1) := by
  have hf : first b0 = 0xF1 := by
    unfold first
    rcases h with h | h
    · simp only [show ¬ b0 < 0x80 by omega, show b0 < 0xC2 by omega, if_true, if_false]
    · simp only [show ¬ b0 < 0x80 by omega, show ¬ b0 < 0xC2 by omega, show ¬ b0 < 0xE0 by omega,
        show ¬ b0 = 0xE0 by omega, show ¬ b0 < 0xED by omega, show ¬ b0 = 0xED by omega,
        show ¬ b0 < 0xF0 by omega, show ¬ b0 = 0xF0 by omega, show ¬ b0 < 0xF4 by omega,
        show ¬ b0 = 0xF4 by omega, if_false]
  simp [DecodeRune, hf]

theorem DecodeRune_two (b0 b1 : Nat) (rest : GoString) (h1 : 0xC2 ≤ b0) (h2 : b0 < 0xE0) :
    DecodeRune (b0 :: b1 :: rest)
      = if b1 < 0x80 ∨ 0xBF < b1 then (RuneError, 1) else (b0 % 32 * 64 + b1 % 64, 2) := by
  have hsz : (2 &&& 7 : Nat) = 2 := by decide
  have hlen : ¬ (rest.length + 1 + 1 < 2) := by omega
  unfold DecodeRune
  simp only [List.length_cons, List.getD_cons_zero, List.getD_cons_succ, first_eq_two b0 h1 h2,
    and_3F, and_1F, shl_6, hsz]
  simp (disch := omega) [acceptRanges, or_64, hlen]

theorem first_eq_three (b : Nat) (h1 : 0xE0 ≤ b) (h2 : b < 0xF0) :
    first b = if b = 0xE0 then 0x13 else if b = 0xED then 0x23 else 0x03 := by
  unfold first
  simp only [show ¬ b < 0x80 by omega, show ¬ b < 0xC2 by omega, show ¬ b < 0xE0 by omega, h2,
    if_true, if_false]
  split_ifs <;> first | rfl | omega

theorem first_eq_four (b : Nat) (h1 : 0xF0 ≤ b) (h2 : b ≤ 0xF4) :
    first b = if b = 0xF0 then 0x34 else if b = 0xF4 then 0x44 else 0x04 := by
  unfold first
  simp only [show ¬ b < 0x80 by omega, show ¬ b < 0xC2 by omega, show ¬ b < 0xE0 by omega,
    show ¬ b = 0xE0 by omega, show ¬ b < 0xED by omega, show ¬ b = 0xED by omega,
    show ¬ b < 0xF0 by omega, if_false]
  split_ifs <;> first | rfl | omega

theorem size_of_first :
    (0x02 &&& 7 : Nat) = 2 ∧ (0x13 &&& 7 : Nat) = 3 ∧ (0x23 &&& 7 : Nat) = 3 ∧
      (0x03 &&& 7 : Nat) = 3 ∧ (0x34 &&& 7 : Nat) = 4 ∧ (0x44 &&& 7 : Nat) = 4 ∧
      (0x04 &&& 7 : Nat) = 4 := by
  decide

theorem accept_of_first :
    (0x02 >>> 4 : Nat) = 0 ∧ (0x13 >>> 4 : Nat) = 1 ∧ (0x23 >>> 4 : Nat) = 2 ∧
      (0x03 >>> 4 : Nat) = 0 ∧ (0x34 >>> 4 : Nat) = 3 ∧ (0x44 >>> 4 : Nat) = 4 ∧
      (0x04 >>> 4 : Nat) = 0 := by
  decide

/-- The size announced by a first byte that starts a multi-byte encoding. -/
theorem first_size (b : Nat) (h1 : 0xC2 ≤ b) (h2 : b ≤ 0xF4) :
    first b < 0xF0 ∧
      first b &&& 7 = if b < 0xE0 then 2 else if b < 0xF0 then 3 else 4 := by
  obtain ⟨s1, s2, s3, s4, s5, s6, s7⟩ := size_of_first
  by_cases c2 : b < 0xE0
  · rw [first_eq_two b h1 c2, if_pos c2]
    exact ⟨by decide, s1⟩
  · by_cases c3 : b < 0xF0
    · rw [first_eq_three b (by omega) c3, if_neg c2, if_pos c3]
      split_ifs
      · exact ⟨by decide, s2⟩
      · exact ⟨by decide, s3⟩
      · exact ⟨by decide, s4⟩
    · rw [first_eq_four b (by omega) h2, if_neg c2, if_neg c3]
      split_ifs
      · exact ⟨by decide, s5⟩
      · exact ⟨by decide, s6⟩
      · exact ⟨by decide, s7⟩

/-- An encoding cut short: fewer bytes than the first byte announces. -/
theorem DecodeRune_truncated (b0 : Nat) (rest : GoString) (h1 : 0xC2 ≤ b0) (h2 : b0 ≤ 0xF4)
    (hlen : rest.length + 1 < if b0 < 0xE0 then 2 else if b0 < 0xF0 then 3 else 4) :
    DecodeRune (b0 :: rest) = (RuneError, 1) := by
  obtain ⟨hf, hsz⟩ := first_size b0 h1 h2
  unfold DecodeRune
  simp only [List.length_cons, List.getD_cons_zero, hsz]
  rw [if_neg (by omega), if_neg (by omega), if_pos hlen]

theorem DecodeRune_three (b0 b1 b2 : Nat) (rest : GoString) (h1 : 0xE0 ≤ b0) (h2 : b0 < 0xF0) :
    DecodeRune (b0 :: b1 :: b2 :: rest)
      = if b1 < (if b0 = 0xE0 then 0xA0 else 0x80) ∨ (if b0 = 0xED then 0x9F else 0xBF) < b1 then
          (RuneError, 1)
        else if b2 < 0x80 ∨ 0xBF < b2 then (RuneError, 1)
        else (b0 % 16 * 4096 + b1 % 64 * 64 + b2 % 64, 3) := by
  have hlen : ¬ (rest.length + 1 + 1 + 1 < 3) := by omega
  obtain ⟨-, s2, s3, s4, -, -, -⟩ := size_of_first
  obtain ⟨-, a2, a3, a4, -, -, -⟩ := accept_of_first
  unfold DecodeRune
  simp only [List.length_cons, List.getD_cons_zero, List.getD_cons_succ,
    first_eq_three b0 h1 h2, and_3F, and_0F, shl_6, shl_12]
  by_cases hE0 : b0 = 0xE0
  · subst hE0
    simp (disch := omega) [acceptRanges, or_64, or_4096, hlen, s2, a2]
  · by_cases hED : b0 = 0xED
    · subst hED
      simp (disch := omega) [acceptRanges, or_64, or_4096, hlen, s3, a3]
    · simp (disch := omega) [acceptRanges, or_64, or_4096, hlen, s4, a4, hE0, hED]

theorem DecodeRune_four (b0 b1 b2 b3 : Nat) (rest : GoString) (h1 : 0xF0 ≤ b0)
    (h2 : b0 ≤ 0xF4) :
    DecodeRune (b0 :: b1 :: b2 :: b3 :: rest)
      = if b1 < (if b0 = 0xF0 then 0x90 else 0x80) ∨ (if b0 = 0xF4 then 0x8F else 0xBF) < b1 then
          (RuneError, 1)
        else if b2 < 0x80 ∨ 0xBF < b2 then (RuneError, 1)
        else if b3 < 0x80 ∨ 0xBF < b3 then (RuneError, 1)
        else (b0 % 8 * 262144 + b1 % 64 * 4096 + b2 % 64 * 64 + b3 % 64, 4) := by
  have hlen : ¬ (rest.length + 1 + 1 + 1 + 1 < 4) := by omega
  obtain ⟨-, -, -, -, s5, s6, s7⟩ := size_of_first
  obtain ⟨-, -, -, -, a5, a6, a7⟩ := accept_of_first
  unfold DecodeRune
  simp only [List.length_cons, List.getD_cons_zero, List.getD_cons_succ,
    first_eq_four b0 h1 h2, and_3F, and_07, shl_6, shl_12, shl_18]
  by_cases hF0 : b0 = 0xF0
  · subst hF0
    simp (disch := omega) [acceptRanges, or_64, or_4096, or_262144, hlen, s5, a5]
  · by_cases hF4 : b0 = 0xF4
    · subst hF4
      simp (disch := omega) [acceptRanges, or_64, or_4096, or_262144, hlen, s6, a6]
    · simp (disch := omega) [acceptRanges, or_64, or_4096, or_262144, hlen, s7, a7, hF0, hF4]

/-! ## `EncodeRune` undoes `DecodeRune` -/

theorem EncodeRune_ascii (b0 : Nat) (h : b0 < 0x80) : EncodeRune b0 = [b0] := by
  unfold EncodeRune
  rw [if_pos (by omega)]
  congr 1
  omega

theorem EncodeRune_two (b0 b1 : Nat) (h1 : 0xC2 ≤ b0) (h2 : b0 < 0xE0) (h3 : 0x80 ≤ b1)
    (h4 : b1 ≤ 0xBF) : EncodeRune (b0 % 32 * 64 + b1 % 64) = [b0, b1] := by
  unfold EncodeRune
  rw [if_neg (by omega), if_pos (by omega)]
  simp only [shr_6, and_3F]
  rw [or_C0 _ (by omega), or_80 _ (by omega)]
  congr 1
  · omega
  · congr 1
    omega

theorem EncodeRune_three (b0 b1 b2 : Nat) (h1 : 0xE0 ≤ b0) (h2 : b0 < 0xF0)
    (h3 : (if b0 = 0xE0 then 0xA0 else 0x80) ≤ b1) (h4 : b1 ≤ if b0 = 0xED then 0x9F else 0xBF)
    (h5 : 0x80 ≤ b2) (h6 : b2 ≤ 0xBF) :
    EncodeRune (b0 % 16 * 4096 + b1 % 64 * 64 + b2 % 64) = [b0, b1, b2] := by
  have h3a : 0x80 ≤ b1 := by split_ifs at h3 <;> omega
  have h3b : b0 = 0xE0 → 0xA0 ≤ b1 := by intro h; rw [if_pos h] at h3; exact h3
  have h4a : b1 ≤ 0xBF := by split_ifs at h4 <;> omega
  have h4b : b0 = 0xED → b1 ≤ 0x9F := by intro h; rw [if_pos h] at h4; exact h4
  unfold EncodeRune MaxRune
  rw [if_neg (by omega), if_neg (by omega), if_neg (by omega), if_pos (by omega)]
  simp only [shr_6, shr_12, and_3F]
  rw [or_E0 _ (by omega), or_80 _ (by omega), or_80 _ (by omega)]
  congr 1
  · omega
  · congr 1
    · omega
    · congr 1
      omega

theorem EncodeRune_four (b0 b1 b2 b3 : Nat) (h1 : 0xF0 ≤ b0) (h2 : b0 ≤ 0xF4)
    (h3 : (if b0 = 0xF0 then 0x90 else 0x80) ≤ b1) (h4 : b1 ≤ if b0 = 0xF4 then 0x8F else 0xBF)
    (h5 : 0x80 ≤ b2) (h6 : b2 ≤ 0xBF) (h7 : 0x80 ≤ b3) (h8 : b3 ≤ 0xBF) :
    EncodeRune (b0 % 8 * 262144 + b1 % 64 * 4096 + b2 % 64 * 64 + b3 % 64)
      = [b0, b1, b2, b3] := by
  have h3a : 0x80 ≤ b1 := by split_ifs at h3 <;> omega
  have h3b : b0 = 0xF0 → 0x90 ≤ b1 := by intro h; rw [if_pos h] at h3; exact h3
  have h4a : b1 ≤ 0xBF := by split_ifs at h4 <;> omega
  have h4b : b0 = 0xF4 → b1 ≤ 0x8F := by intro h; rw [if_pos h] at h4; exact h4
  unfold EncodeRune MaxRune
  rw [if_neg (by omega), if_neg (by omega), if_neg (by omega), if_neg (by omega)]
  simp only [shr_6, shr_12, shr_18, and_3F]
  rw [or_F0 _ (by omega), or_80 _ (by omega), or_80 _ (by omega), or_80 _ (by omega)]
  congr 1
  · omega
  · congr 1
    · omega
    · congr 1
      · omega
      · congr 1
        omega

/-- A decoding step that does not meet an invalid encoding consumes between
one byte and the whole input, is undone by `EncodeRune`, and reads only the
bytes it consumes. -/
theorem DecodeRune_valid (b0 : Nat) (rest : GoString)
    (hv : ¬((DecodeRune (b0 :: rest)).1 = RuneError ∧ (DecodeRune (b0 :: rest)).2 = 1)) :
    1 ≤ (DecodeRune (b0 :: rest)).2 ∧
      (DecodeRune (b0 :: rest)).2 ≤ (b0 :: rest).length ∧
      EncodeRune (DecodeRune (b0 :: rest)).1 = (b0 :: rest).take (DecodeRune (b0 :: rest)).2 ∧
      ∀ t, DecodeRune ((b0 :: rest).take (DecodeRune (b0 :: rest)).2 ++ t)
        = DecodeRune (b0 :: rest) := by
  by_cases c1 : b0 < 0x80
  · rw [DecodeRune_ascii b0 rest c1]
    refine ⟨by simp, by simp, by simpa using EncodeRune_ascii b0 c1, ?_⟩
    intro t
    simpa using DecodeRune_ascii b0 t c1
  by_cases cbad : b0 < 0xC2 ∨ 0xF4 < b0
  · exfalso
    apply hv
    rw [DecodeRune_bad_lead b0 rest (by omega)]
    exact ⟨rfl, rfl⟩
  by_cases c2 : b0 < 0xE0
  · match rest, hv with
    | [], hv =>
      exfalso
      apply hv
      rw [DecodeRune_truncated b0 [] (by omega) (by omega) (by simp [c2])]
      exact ⟨rfl, rfl⟩
    | b1 :: r, hv =>
      rw [DecodeRune_two b0 b1 r (by omega) c2] at hv ⊢
      by_cases hb1 : b1 < 0x80 ∨ 0xBF < b1
      · rw [if_pos hb1] at hv
        exact absurd ⟨rfl, rfl⟩ hv
      · rw [if_neg hb1]
        refine ⟨by simp, by simp, ?_, ?_⟩
        · simpa using EncodeRune_two b0 b1 (by omega) c2 (by omega) (by omega)
        · intro t
          simp only [List.take_succ_cons, List.take_zero, List.cons_append, List.nil_append]
          rw [DecodeRune_two b0 b1 t (by omega) c2, if_neg hb1]
  by_cases c3 : b0 < 0xF0
  · match rest, hv with
    | [], hv =>
      exfalso
      apply hv
      rw [DecodeRune_truncated b0 [] (by omega) (by omega) (by simp [c2, c3])]
      exact ⟨rfl, rfl⟩
    | [b1], hv =>
      exfalso
      apply hv
      rw [DecodeRune_truncated b0 [b1] (by omega) (by omega) (by simp [c2, c3])]
      exact ⟨rfl, rfl⟩
    | b1 :: b2 :: r, hv =>
      rw [DecodeRune_three b0 b1 b2 r (by omega) c3] at hv ⊢
      by_cases hb1 : b1 < (if b0 = 0xE0 then 0xA0 else 0x80) ∨
          (if b0 = 0xED then 0x9F else 0xBF) < b1
      · rw [if_pos hb1] at hv
        exact absurd ⟨rfl, rfl⟩ hv
      · rw [if_neg hb1] at hv ⊢
        by_cases hb2 : b2 < 0x80 ∨ 0xBF < b2
        · rw [if_pos hb2] at hv
          exact absurd ⟨rfl, rfl⟩ hv
        · rw [if_neg hb2]
          refine ⟨by simp, by simp, ?_, ?_⟩
          · simpa using EncodeRune_three b0 b1 b2 (by omega) c3 (by omega) (by omega)
              (by omega) (by omega)
          · intro t
            simp only [List.take_succ_cons, List.take_zero, List.cons_append, List.nil_append]
            rw [DecodeRune_three b0 b1 b2 t (by omega) c3, if_neg hb1, if_neg hb2]
  · match rest, hv with
    | [], hv =>
      exfalso
      apply hv
      rw [DecodeRune_truncated b0 [] (by omega) (by omega) (by simp [c2, c3])]
      exact ⟨rfl, rfl⟩
    | [b1], hv =>
      exfalso
      apply hv
      rw [DecodeRune_truncated b0 [b1] (by omega) (by omega) (by simp [c2, c3])]
      exact ⟨rfl, rfl⟩
    | [b1, b2], hv =>
      exfalso
      apply hv
      rw [DecodeRune_truncated b0 [b1, b2] (by omega) (by omega) (by simp [c2, c3])]
      exact ⟨rfl, rfl⟩
    | b1 :: b2 :: b3 :: r, hv =>
      rw [DecodeRune_four b0 b1 b2 b3 r (by omega) (by omega)] at hv ⊢
      by_cases hb1 : b1 < (if b0 = 0xF0 then 0x90 else 0x80) ∨
          (if b0 = 0xF4 then 0x8F else 0xBF) < b1
      · rw [if_pos hb1] at hv
        exact absurd ⟨rfl, rfl⟩ hv
      · rw [if_neg hb1] at hv ⊢
        by_cases hb2 : b2 < 0x80 ∨ 0xBF < b2
        · rw [if_pos hb2] at hv
          exact absurd ⟨rfl, rfl⟩ hv
        · rw [if_neg hb2] at hv ⊢
          by_cases hb3 : b3 < 0x80 ∨ 0xBF < b3
          · rw [if_pos hb3] at hv
            exact absurd ⟨rfl, rfl⟩ hv
          · rw [if_neg hb3]
            refine ⟨by simp, by simp, ?_, ?_⟩
            · simpa using EncodeRune_four b0 b1 b2 b3 (by omega) (by omega) (by omega)
                (by omega) (by omega) (by omega) (by omega) (by omega)
            · intro t
              simp only [List.take_succ_cons, List.take_zero, List.cons_append,
                List.nil_append]
              rw [DecodeRune_four b0 b1 b2 b3 t (by omega) (by omega), if_neg hb1, if_neg hb2,
                if_neg hb3]

/-- The call of `DecodeRune` in `appendString` is given at most `UTFMax`
bytes; that does not change its result. -/
theorem DecodeRune_take (s : GoString) : DecodeRune (s.take UTFMax) = DecodeRune s := by
  match s with
  | [] => rfl
  | [_] => rfl
  | [_, _] => rfl
  | [_, _, _] => rfl
  | [_, _, _, _] => rfl
  | b0 :: b1 :: b2 :: b3 :: b4 :: r =>
    show DecodeRune [b0, b1, b2, b3] = DecodeRune (b0 :: b1 :: b2 :: b3 :: b4 :: r)
    by_cases c1 : b0 < 0x80
    · rw [DecodeRune_ascii b0 _ c1, DecodeRune_ascii b0 _ c1]
    by_cases cbad : b0 < 0xC2 ∨ 0xF4 < b0
    · rw [DecodeRune_bad_lead b0 _ (by omega), DecodeRune_bad_lead b0 _ (by omega)]
    by_cases c2 : b0 < 0xE0
    · rw [DecodeRune_two b0 b1 _ (by omega) c2, DecodeRune_two b0 b1 _ (by omega) c2]
    by_cases c3 : b0 < 0xF0
    · rw [DecodeRune_three b0 b1 b2 _ (by omega) c3, DecodeRune_three b0 b1 b2 _ (by omega) c3]
    · rw [DecodeRune_four b0 b1 b2 b3 _ (by omega) (by omega),
        DecodeRune_four b0 b1 b2 b3 _ (by omega) (by omega)]

/-! ## One step of the decoder on what one step of the encoder writes -/

theorem hexValue_hex (n : Nat) (h : n < 16) : hexValue (hex n) = some n := by
  unfold hexValue hex
  by_cases c : n < 10
  · rw [if_pos c, if_pos (by omega)]
    congr 1
    omega
  · rw [if_neg c, if_neg (by omega), if_pos (by omega)]
    congr 1
    omega

theorem getu4_byte (b : Nat) (t : GoString) (h : b < 0x100) :
    getu4 (0x5C :: 0x75 :: 0x30 :: 0x30 :: hex (b >>> 4) :: hex (b &&& 0xF) :: t) = some b := by
  have h0 : hexValue 0x30 = some 0 := by decide
  have e4 : b &&& 0xF = b % 16 := and_0F b
  unfold getu4
  simp only [ne_eq, not_true_eq_false, or_self, if_false, h0, shr_4, e4,
    hexValue_hex (b / 16) (by omega), hexValue_hex (b % 16) (by omega)]
  congr 1
  omega

theorem unquoteLoop_quote (fd : Nat) (t : GoString) :
    unquoteLoop (fd + 1) (0x22 :: t) = some ([], t) := by
  simp [unquoteLoop]

theorem unquoteLoop_safe (fd b : Nat) (t : GoString) (h : htmlSafeSet b = true) :
    unquoteLoop (fd + 1) (b :: t) = (unquoteLoop fd t).map fun p => (b :: p.1, p.2) := by
  simp only [htmlSafeSet, Bool.and_eq_true, decide_eq_true_eq, bne_iff_ne, ne_eq] at h
  obtain ⟨⟨⟨⟨⟨⟨h1, h2⟩, h3⟩, -⟩, -⟩, -⟩, h4⟩ := h
  conv_lhs => rw [unquoteLoop.eq_def]
  simp only
  rw [if_neg h3, if_neg h4, if_neg (by omega), if_pos (by unfold RuneSelf; omega)]

theorem unquoteLoop_simple (fd e b : Nat) (t : GoString) (he : e ≠ 0x75)
    (h : simpleEscape e = some b) :
    unquoteLoop (fd + 1) (0x5C :: e :: t)
      = (unquoteLoop fd t).map fun p => (b :: p.1, p.2) := by
  rw [unquoteLoop, if_neg (by decide), if_pos rfl]
  simp only [he, if_false, h]

theorem unquoteLoop_u4 (fd r : Nat) (c0 c1 c2 c3 : Nat) (t : GoString)
    (h : getu4 (0x5C :: 0x75 :: c0 :: c1 :: c2 :: c3 :: t) = some r)
    (hr : IsSurrogate r = false) :
    unquoteLoop (fd + 1) (0x5C :: 0x75 :: c0 :: c1 :: c2 :: c3 :: t)
      = (unquoteLoop fd t).map fun p => (EncodeRune r ++ p.1, p.2) := by
  rw [unquoteLoop, if_neg (by decide), if_pos rfl]
  simp only [if_true, h, hr, Bool.false_eq_true, false_and, if_false, List.drop_succ_cons,
    List.drop_zero]

theorem unquoteLoop_escaped (fd b : Nat) (t : GoString) (hb : b < 0x80)
    (h : htmlSafeSet b = false) :
    unquoteLoop (fd + 1) (escapeByte b ++ t)
      = (unquoteLoop fd t).map fun p => (b :: p.1, p.2) := by
  unfold escapeByte
  by_cases c1 : b = 0x5C ∨ b = 0x22
  · rw [if_pos c1]
    exact unquoteLoop_simple fd b b t (by omega) (by rcases c1 with rfl | rfl <;> decide)
  rw [if_neg c1]
  by_cases c2 : b = 0x08
  · subst c2
    exact unquoteLoop_simple fd 0x62 0x08 t (by decide) (by decide)
  rw [if_neg c2]
  by_cases c3 : b = 0x0C
  · subst c3
    exact unquoteLoop_simple fd 0x66 0x0C t (by decide) (by decide)
  rw [if_neg c3]
  by_cases c4 : b = 0x0A
  · subst c4
    exact unquoteLoop_simple fd 0x6E 0x0A t (by decide) (by decide)
  rw [if_neg c4]
  by_cases c5 : b = 0x0D
  · subst c5
    exact unquoteLoop_simple fd 0x72 0x0D t (by decide) (by decide)
  rw [if_neg c5]
  by_cases c6 : b = 0x09
  · subst c6
    exact unquoteLoop_simple fd 0x74 0x09 t (by decide) (by decide)
  rw [if_neg c6]
  have hs : IsSurrogate b = false := by
    simp only [IsSurrogate, Bool.and_eq_false_imp, decide_eq_true_eq, decide_eq_false_iff_not]
    omega
  have := unquoteLoop_u4 fd b 0x30 0x30 (hex (b >>> 4)) (hex (b &&& 0xF)) t
    (getu4_byte b t (by omega)) hs
  rw [EncodeRune_ascii b hb] at this
  exact this

/-- The decoder on the bytes of a valid multi-byte encoding, copied as they
are by the encoder. -/
theorem unquoteLoop_rune (fd b0 : Nat) (rest t : GoString) (hb : 0x80 ≤ b0)
    (hv : ¬((DecodeRune (b0 :: rest)).1 = RuneError ∧ (DecodeRune (b0 :: rest)).2 = 1)) :
    unquoteLoop (fd + 1) ((b0 :: rest).take (DecodeRune (b0 :: rest)).2 ++ t)
      = (unquoteLoop fd t).map
          fun p => ((b0 :: rest).take (DecodeRune (b0 :: rest)).2 ++ p.1, p.2) := by
  obtain ⟨h1, h2, h3, h4⟩ := DecodeRune_valid b0 rest hv
  obtain ⟨n, hn⟩ : ∃ n, (DecodeRune (b0 :: rest)).2 = n + 1 := ⟨_, (Nat.sub_add_cancel h1).symm⟩
  have h4t := h4 t
  have hlen : ((b0 :: rest).take (DecodeRune (b0 :: rest)).2).length
      = (DecodeRune (b0 :: rest)).2 := List.length_take_of_le h2
  have hdrop : List.drop (DecodeRune (b0 :: rest)).2
      ((b0 :: rest).take (DecodeRune (b0 :: rest)).2 ++ t) = t := by
    rw [List.drop_append_of_le_length (by omega), List.drop_of_length_le (by omega),
      List.nil_append]
  rw [hn] at h4t hdrop h3 ⊢
  simp only [List.take_succ_cons, List.cons_append] at h4t hdrop h3 ⊢
  conv_lhs => rw [unquoteLoop.eq_def]
  simp only
  rw [if_neg (by omega), if_neg (by omega), if_neg (by omega),
    if_neg (by unfold RuneSelf; omega)]
  simp only [h4t, hn, hdrop, h3]
  rfl

/-- The decoder on the escape written for U+2028 and U+2029. -/
theorem unquoteLoop_separator (fd c : Nat) (t : GoString) (hc : c = 0x2028 ∨ c = 0x2029) :
    unquoteLoop (fd + 1) ([0x5C, 0x75, 0x32, 0x30, 0x32, hex (c &&& 0xF)] ++ t)
      = (unquoteLoop fd t).map fun p => (EncodeRune c ++ p.1, p.2) := by
  rcases hc with rfl | rfl
  · exact unquoteLoop_u4 fd 0x2028 0x32 0x30 0x32 _ t (by rfl) (by decide)
  · exact unquoteLoop_u4 fd 0x2029 0x32 0x30 0x32 _ t (by rfl) (by decide)

/-! ## The round trip of a string through the encoder and the decoder -/

theorem escapeByte_length_pos (b : Nat) : 1 ≤ (escapeByte b).length := by
  unfold escapeByte
  split_ifs <;> simp

/-- The decoder reads back a valid UTF-8 string from what the encoder writes
for it, and stops after the closing quote. -/
theorem unquoteLoop_appendStringLoop (k : Nat) :
    ∀ s : GoString, s.length ≤ k → ValidStringLoop k s = true →
      ∀ (fd : Nat) (t : GoString), (appendStringLoop k s).length < fd →
        unquoteLoop fd (appendStringLoop k s ++ 0x22 :: t) = some (s, t) := by
  induction k with
  | zero =>
    intro s hs _ fd t hfd
    have hnil : s = [] := List.length_eq_zero.mp (Nat.le_zero.mp hs)
    subst hnil
    obtain ⟨fd, rfl⟩ : ∃ m, fd = m + 1 := ⟨fd - 1, by omega⟩
    simpa [appendStringLoop] using unquoteLoop_quote fd t
  | succ k ih =>
    intro s hs hvalid fd t hfd
    obtain ⟨fd, rfl⟩ : ∃ m, fd = m + 1 := ⟨fd - 1, by omega⟩
    match s, hs, hvalid, hfd with
    | [], _, _, _ => simpa [appendStringLoop] using unquoteLoop_quote fd t
    | b :: rest, hs, hvalid, hfd =>
      have hlen : rest.length ≤ k := by simpa using hs
      rw [ValidStringLoop] at hvalid
      simp only [List.isEmpty_cons, Bool.false_eq_true, if_false] at hvalid
      rw [appendStringLoop] at hfd ⊢
      by_cases hb : b < RuneSelf
      · have hb80 : b < 0x80 := hb
        rw [DecodeRune_ascii b rest hb80] at hvalid
        have hrest : ValidStringLoop k rest = true := by
          have hne : ¬(b = RuneError ∧ 1 = 1) := by
            unfold RuneError
            omega
          rw [if_neg hne] at hvalid
          simpa using hvalid
        rw [if_pos hb] at hfd ⊢
        rw [List.append_assoc]
        by_cases hsafe : htmlSafeSet b = true
        · rw [if_pos hsafe] at hfd ⊢
          simp only [List.length_append, List.length_singleton] at hfd
          rw [List.singleton_append, unquoteLoop_safe fd b _ hsafe,
            ih rest hlen hrest fd t (by omega)]
          rfl
        · rw [if_neg hsafe] at hfd ⊢
          simp only [List.length_append] at hfd
          have hpos := escapeByte_length_pos b
          rw [unquoteLoop_escaped fd b _ hb80 (by simpa using hsafe),
            ih rest hlen hrest fd t (by omega)]
          rfl
      · have hb80 : 0x80 ≤ b := by
          unfold RuneSelf at hb
          omega
        rw [if_neg hb] at hfd ⊢
        simp only [DecodeRune_take] at hfd ⊢
        by_cases herr : (DecodeRune (b :: rest)).1 = RuneError ∧ (DecodeRune (b :: rest)).2 = 1
        · simp [herr] at hvalid
        · rw [if_neg herr] at hvalid hfd ⊢
          obtain ⟨h1, h2, h3, -⟩ := DecodeRune_valid b rest herr
          have hdroplen : (List.drop (DecodeRune (b :: rest)).2 (b :: rest)).length ≤ k := by
            rw [List.length_drop]
            simp only [List.length_cons] at hs ⊢
            omega
          by_cases hsep : (DecodeRune (b :: rest)).1 = 0x2028 ∨ (DecodeRune (b :: rest)).1 = 0x2029
          · rw [if_pos hsep] at hfd ⊢
            simp only [List.length_append, List.length_cons, List.length_nil] at hfd
            rw [List.append_assoc, unquoteLoop_separator fd _ _ hsep,
              ih _ hdroplen hvalid fd t (by omega)]
            simp only [Option.map_some', h3, List.take_append_drop]
          · rw [if_neg hsep] at hfd ⊢
            simp only [List.length_append] at hfd
            have htl : ((b :: rest).take (DecodeRune (b :: rest)).2).length
                = (DecodeRune (b :: rest)).2 := List.length_take_of_le h2
            rw [List.append_assoc, unquoteLoop_rune fd b rest _ hb80 herr,
              ih _ hdroplen hvalid fd t (by omega)]
            simp only [Option.map_some', List.take_append_drop]

theorem decodeString_appendString (s t : GoString) (h : ValidString s = true) :
    decodeString (appendString s ++ t) = some (s, t) := by
  unfold appendString decodeString
  simp only [List.cons_append, List.nil_append, if_true, List.append_assoc,
    List.singleton_append]
  exact unquoteLoop_appendStringLoop s.length s (Nat.le_refl _) h _ t (by simp)

theorem skipSpace_cons (c : Nat) (t : GoString)
    (h : c ≠ 0x20 ∧ c ≠ 0x09 ∧ c ≠ 0x0A ∧ c ≠ 0x0D) : skipSpace (c :: t) = c :: t := by
  unfold skipSpace
  rw [List.dropWhile_cons_of_neg]
  simp [h.1, h.2.1, h.2.2.1, h.2.2.2]

theorem appendString_head (s : GoString) :
    appendString s = 0x22 :: (appendStringLoop s.length s ++ [0x22]) := rfl

theorem decodeMembers_single (name value : GoString) (fuel : Nat)
    (hn : ValidString name = true) (hv : ValidString value = true) :
    decodeMembers (fuel + 1) (appendString name ++ 0x3A :: (appendString value ++ [0x7D]))
      = some ([(name, value)], []) := by
  rw [decodeMembers]
  have e1 : skipSpace (appendString name ++ 0x3A :: (appendString value ++ [0x7D]))
      = appendString name ++ 0x3A :: (appendString value ++ [0x7D]) := by
    rw [appendString_head, List.cons_append]
    exact skipSpace_cons _ _ (by decide)
  have e2 : skipSpace (appendString value ++ [0x7D]) = appendString value ++ [0x7D] := by
    rw [appendString_head, List.cons_append]
    exact skipSpace_cons _ _ (by decide)
  simp only [e1, decodeString_appendString name _ hn, skipSpace_cons 0x3A _ (by decide), e2,
    decodeString_appendString value _ hv, skipSpace_cons 0x7D _ (by decide), ne_eq,
    not_true_eq_false, if_false, if_true]

/-- The JSON document written for a message whose text is valid UTF-8
decodes to the object with the single member `text`, holding that text. -/
theorem jsonDecodeObject_message (s : GoString) (h : ValidString s = true) :
    jsonDecodeObject
        ([0x7B] ++ [0x22] ++ ascii "text" ++ [0x22, 0x3A] ++ appendString s ++ [0x7D])
      = some [(ascii "text", s)] := by
  have hshape : [0x7B] ++ [0x22] ++ ascii "text" ++ [0x22, 0x3A] ++ appendString s ++ [0x7D]
      = 0x7B :: (appendString (ascii "text") ++ 0x3A :: (appendString s ++ [0x7D])) := by
    have : appendString (ascii "text") = [0x22] ++ ascii "text" ++ [0x22] := by decide
    rw [this]
    simp
  rw [hshape]
  unfold jsonDecodeObject
  have e1 : skipSpace (appendString (ascii "text") ++ 0x3A :: (appendString s ++ [0x7D]))
      = 0x22 :: (appendStringLoop (ascii "text").length (ascii "text") ++ [0x22]
          ++ 0x3A :: (appendString s ++ [0x7D])) := by
    rw [appendString_head, List.cons_append]
    exact skipSpace_cons _ _ (by decide)
  have e2 : (appendString (ascii "text") ++ 0x3A :: (appendString s ++ [0x7D])).length
      = ((appendString (ascii "text") ++ 0x3A :: (appendString s ++ [0x7D])).length - 1) + 1 := by
    rw [appendString_head]
    simp
  rw [skipSpace_cons 0x7B _ (by decide)]
  simp only [ne_eq, not_true_eq_false, if_false, e1]
  rw [if_neg (by decide), e2, decodeMembers_single _ _ _ (by decide) h]
  rfl

/-! ## The iteration bounds are enough -/

/-- The encoder loop consumes at least one byte in every iteration, so any
bound of at least the length of the input gives the same output. -/
theorem appendStringLoop_fuel (k : Nat) :
    ∀ (s : GoString) (k2 : Nat), s.length ≤ k → s.length ≤ k2 →
      appendStringLoop k s = appendStringLoop k2 s := by
  induction k with
  | zero =>
    intro s k2 hs _
    have hnil : s = [] := List.length_eq_zero.mp (Nat.le_zero.mp hs)
    subst hnil
    cases k2 <;> rfl
  | succ k ih =>
    intro s k2 hs hs2
    match s, hs, hs2 with
    | [], _, _ => cases k2 <;> rfl
    | b :: rest, hs, hs2 =>
      obtain ⟨k2, rfl⟩ : ∃ m, k2 = m + 1 := ⟨k2 - 1, by simp at hs2; omega⟩
      have hlen : rest.length ≤ k := by simpa using hs
      have hlen2 : rest.length ≤ k2 := by simpa using hs2
      rw [appendStringLoop, appendStringLoop]
      by_cases hb : b < RuneSelf
      · rw [if_pos hb, if_pos hb, ih rest k2 hlen hlen2]
      · rw [if_neg hb, if_neg hb]
        simp only [DecodeRune_take]
        by_cases herr : (DecodeRune (b :: rest)).1 = RuneError ∧ (DecodeRune (b :: rest)).2 = 1
        · rw [if_pos herr, if_pos herr, ih rest k2 hlen hlen2]
        · obtain ⟨h1, -, -, -⟩ := DecodeRune_valid b rest herr
          have hd : (List.drop (DecodeRune (b :: rest)).2 (b :: rest)).length ≤ k := by
            rw [List.length_drop]
            simp only [List.length_cons] at hs ⊢
            omega
          have hd2 : (List.drop (DecodeRune (b :: rest)).2 (b :: rest)).length ≤ k2 := by
            rw [List.length_drop]
            simp only [List.length_cons] at hs2 ⊢
            omega
          rw [if_neg herr, if_neg herr, ih _ k2 hd hd2]

/-! ## The body sent by `sendToChannel` -/

/-- C3, as amended: for every string `s` the encoding of `message` with text
`s` succeeds, and when `s` is valid UTF-8 (the empty string and strings with
quotes, backslashes, control characters, `<`, `>` and `&` included) the
body JSON-decodes to the object with the single key `text` whose value is
exactly `s`. -/
theorem jsonMarshal_roundtrip (s : GoString) :
    ∃ body, jsonMarshal { Text := s } = .ok body ∧
      (ValidString s = true → jsonDecodeObject body = some [(ascii "text", s)]) :=
  ⟨_, rfl, jsonDecodeObject_message s⟩

/-- C3, witness: a text with a quote, a backslash, `<`, `>`, `&`, a newline,
the control character 0x01, a two-byte rune, U+2028 and a four-byte rune. -/
theorem jsonMarshal_roundtrip_witness :
    ValidString (ascii "a\"\\<>&\n" ++ [0x01, 0xC3, 0xA9, 0xE2, 0x80, 0xA8, 0xF0, 0x9F, 0x98, 0x80])
        = true ∧
      ∃ body,
        jsonMarshal
            { Text := ascii "a\"\\<>&\n"
                ++ [0x01, 0xC3, 0xA9, 0xE2, 0x80, 0xA8, 0xF0, 0x9F, 0x98, 0x80] }
          = .ok body ∧
        jsonDecodeObject body
          = some [(ascii "text",
              ascii "a\"\\<>&\n" ++ [0x01, 0xC3, 0xA9, 0xE2, 0x80, 0xA8, 0xF0, 0x9F, 0x98, 0x80])] :=
  ⟨by decide,
    (jsonMarshal_roundtrip _).elim fun body hb => ⟨body, hb.1, hb.2 (by decide)⟩⟩

/-- C3, counterexample: the byte 0xFF is not valid UTF-8. The form body
`text=%ff` makes it the text passed on; its encoding is the document
`\x7b"text":"\ufffd"\x7d`, which decodes to the three bytes of U+FFFD and
not to the byte 0xFF. -/
theorem jsonMarshal_invalid_utf8_replaced :
    FormValue (ParseForm (postRequest "text=%ff" "")).Form (ascii "text") = [0xFF] ∧
      jsonMarshal { Text := [0xFF] }
        = .ok [0x7B, 0x22, 0x74, 0x65, 0x78, 0x74, 0x22, 0x3A, 0x22, 0x5C, 0x75, 0x66, 0x66,
            0x66, 0x64, 0x22, 0x7D] ∧
      jsonDecodeObject [0x7B, 0x22, 0x74, 0x65, 0x78, 0x74, 0x22, 0x3A, 0x22, 0x5C, 0x75, 0x66,
          0x66, 0x66, 0x64, 0x22, 0x7D]
        = some [(ascii "text", [0xEF, 0xBF, 0xBD])] ∧
      jsonDecodeObject [0x7B, 0x22, 0x74, 0x65, 0x78, 0x74, 0x22, 0x3A, 0x22, 0x5C, 0x75, 0x66,
          0x66, 0x66, 0x64, 0x22, 0x7D]
        ≠ some [(ascii "text", [0xFF])] :=
  ⟨by decide, rfl, by decide, by decide⟩

/-! ## Instances and counterexamples for `getEnv` and `sendToChannel` -/

/-- C5, instance: `PORT` set to `8080` gives `8080`; `SLACK_URL`, unset,
gives the fallback. -/
theorem getEnv_set_or_fallback_witness :
    getEnv (fun k => if k = ascii "PORT" then some (ascii "8080") else none) (ascii "PORT")
        (ascii "3000") = ascii "8080" ∧
      getEnv (fun k => if k = ascii "PORT" then some (ascii "8080") else none)
        (ascii "SLACK_URL") (ascii "SLACK_URL") = ascii "SLACK_URL" :=
  ⟨(getEnv_set_or_fallback (fun k => if k = ascii "PORT" then some (ascii "8080") else none)
      (ascii "PORT") (ascii "3000")).1 (ascii "8080") (by decide),
    (getEnv_set_or_fallback (fun k => if k = ascii "PORT" then some (ascii "8080") else none)
      (ascii "SLACK_URL") (ascii "SLACK_URL")).2 (by decide)⟩

/-- C6, witness: an endpoint answering with status 500 makes `sendToChannel`
return nil, and that response is the one received. -/
theorem sendToChannel_result_witness :
    (sendToChannel worldAnswering envExample (ascii "hello") Effects.none).1 = none ∧
      (sendToChannel worldAnswering envExample (ascii "hello") Effects.none).2.received
        = [{ StatusCode := 500, Location := [], Body := [] }] :=
  ((sendToChannel_result worldAnswering envExample (ascii "hello")).2.1 _ rfl rfl).2.1
    { StatusCode := 500, Location := [], Body := [] } rfl (Or.inl (by decide))

/-- C6, counterexample: the endpoint answers with status 302 and a `Location`
that does not parse. A response was received, and `sendToChannel` returns
an error; so a nil result does not follow from a received response, and an
error does not mean that no response was received. -/
theorem sendToChannel_error_after_response :
    (sendToChannel worldBadLocation envExample (ascii "hello") Effects.none).2.received
        = [{ StatusCode := 302, Location := ascii "%zz", Body := [] }] ∧
      (sendToChannel worldBadLocation envExample (ascii "hello") Effects.none).1
        = some GoError.location ∧
      (sendToChannel worldBadLocation envExample (ascii "hello") Effects.none).1 ≠ none := by
  decide

/-- C7, witness: with a URL that parses and an endpoint answering with status
500, the request for the text `hello` is the single request sent. -/
theorem sendToChannel_requests_witness :
    ∃ body,
      jsonMarshal { Text := ascii "hello" } = .ok body ∧
      (sendToChannel worldAnswering envExample (ascii "hello") Effects.none).2.sent
        = [⟨ascii "POST", envExample.slackURL,
            [(ascii "Content-Type", ascii "application/json")], body⟩] :=
  (sendToChannel_requests worldAnswering envExample (ascii "hello") Effects.none).elim
    fun new h =>
      (h.2.2.2 rfl).elim fun body hb =>
        hb.elim fun more hm =>
          ⟨body, hm.1, by
            have hmore : more = [] :=
              hm.2.2.2.2 { StatusCode := 500, Location := [], Body := [] } rfl
                (Or.inl (by decide))
            rw [h.1, hm.2.1, hmore]
            rfl⟩

/-- C7, counterexample: the endpoint answers the first request with status
307 and the `Location` `http://other`. Two requests are sent, and the second
one goes to `http://other`, not to `env.slackURL`. -/
theorem sendToChannel_redirect_second_request :
    (sendToChannel worldRedirecting envExample (ascii "hello") Effects.none).2.sent.length
        = 2 ∧
      ((sendToChannel worldRedirecting envExample (ascii "hello") Effects.none).2.sent.map
          fun r => (r.method, r.url))
        = [(ascii "POST", ascii "http://hook"), (ascii "POST", ascii "http://other")] ∧
      ascii "http://other" ≠ envExample.slackURL := by
  decide

end GoSlackBot
